import Mathlib

set_option maxRecDepth 100000

/-!
Shallow embedding of the extraction core of the OCR-to-Q&A pipeline:
the technical entity extractor (entity_extractor.py) and the table
reconstructor (table_reconstructor.py).  Python strings are modelled as
List Char (with String at the API boundary), Python regular expressions
as values of an inductive Re matched by a backtracking matcher with the
leftmost, greedy, alternation-tries-left-first semantics of the re
module, and Python None as Option.
-/

/-- Python str.isspace / the regex class backslash-s for the ASCII range. -/
def pyIsSpace (c : Char) : Bool :=
  c = ' ' || c = '\t' || c = '\n' || c = '\r' || c = '\x0b' || c = '\x0c'

/-- Character class A-Z. -/
def cUpper (c : Char) : Bool := 'A' ≤ c && c ≤ 'Z'

/-- Character class a-z. -/
def cLower (c : Char) : Bool := 'a' ≤ c && c ≤ 'z'

/-- Hex digit class 0-9A-Fa-f. -/
def cHex (c : Char) : Bool := c.isDigit || ('A' ≤ c && c ≤ 'F') || ('a' ≤ c && c ≤ 'f')

/-- Word character class for the regex token backslash-w and for word boundaries. -/
def pyIsWordCh (c : Char) : Bool := c.isAlpha || c.isDigit || c = '_'

/-- Python str.strip with no arguments: trim whitespace from both ends. -/
def pystrip (cs : List Char) : List Char :=
  ((cs.dropWhile pyIsSpace).reverse.dropWhile pyIsSpace).reverse

/-- Python str.lower (ASCII). -/
def pyLower (cs : List Char) : List Char := cs.map Char.toLower

/-- Python str.upper (ASCII). -/
def pyUpperL (cs : List Char) : List Char := cs.map Char.toUpper

/-- Python str.isalpha: non-empty and every character alphabetic. -/
def pyIsAlphaStr (cs : List Char) : Bool := !cs.isEmpty && cs.all Char.isAlpha

/-- Python str.capitalize: first character upper-cased, the rest lower-cased. -/
def pyCapitalize (cs : List Char) : List Char :=
  match cs with
  | [] => []
  | c :: rest => c.toUpper :: rest.map Char.toLower

/-- Python slice s[a:b] on a list of characters (clamping like Python does). -/
def subSlice (s : List Char) (a b : Nat) : List Char := (s.drop a).take (b - a)

/-- Helper for splitSep, with fuel bounded by the length of the input. -/
def splitSepGo (sep : List Char) : Nat → List Char → List Char → List (List Char)
  | 0, rest, cur => [cur.reverse ++ rest]
  | fuel+1, rest, cur =>
    if sep.isPrefixOf rest then
      cur.reverse :: splitSepGo sep fuel (rest.drop sep.length) []
    else
      match rest with
      | [] => [cur.reverse]
      | c :: rs => splitSepGo sep fuel rs (c :: cur)

/-- Python str.split(sep) for a non-empty separator: split on every
non-overlapping occurrence, keeping empty pieces. -/
def splitSep (sep cs : List Char) : List (List Char) := splitSepGo sep (cs.length + 1) cs []

/-- Helper for pysplitWs, with fuel bounded by the length of the input. -/
def pysplitWsGo : Nat → List Char → List (List Char)
  | 0, _ => []
  | fuel+1, cs =>
    let cs2 := cs.dropWhile pyIsSpace
    match cs2 with
    | [] => []
    | _ =>
      cs2.takeWhile (fun c => !pyIsSpace c) ::
        pysplitWsGo fuel (cs2.dropWhile (fun c => !pyIsSpace c))

/-- Python str.split() with no arguments: whitespace-run tokens, no empties. -/
def pysplitWs (cs : List Char) : List (List Char) := pysplitWsGo (cs.length + 1) cs

/-- Python substring membership: containsSub pat hay is pat in hay. -/
def containsSub (pat : List Char) : List Char → Bool
  | [] => pat.isEmpty
  | c :: rest => pat.isPrefixOf (c :: rest) || containsSub pat rest

/-- Python sep.join on a list of strings. -/
def joinSep (sep : List Char) : List (List Char) → List Char
  | [] => []
  | [x] => x
  | x :: xs => x ++ sep ++ joinSep sep xs

/-- Capture records: (group index, start position, end position). -/
abbrev Caps := List (Nat × Nat × Nat)

/-- Result of a match attempt: end position and captures, or failure. -/
abbrev MRes := Option (Nat × Caps)

/-- Matcher continuation: previous char, remaining input, position, captures. -/
abbrev MCont := Option Char → List Char → Nat → Caps → MRes

/-- A partial matcher for one subexpression, in continuation-passing style. -/
abbrev Matcher := Option Char → List Char → Nat → Caps → MCont → MRes

/-- Regular expressions, as used by the two Python modules.  cls covers
literal characters and character classes; star is greedy, starL lazy
(as in the repetitions X* and X*?); grp is a numbered capturing group;
look is a lookahead; wb the word boundary; bos the anchor at position 0;
eol the default-mode dollar anchor; eos the backslash-Z anchor. -/
inductive Re where
  | eps : Re
  | cls : (Char → Bool) → Re
  | seq : Re → Re → Re
  | alt : Re → Re → Re
  | star : Re → Re
  | starL : Re → Re
  | grp : Nat → Re → Re
  | look : Re → Re
  | wb : Re
  | bos : Re
  | eol : Re
  | eos : Re

/-- Greedy iteration of a body matcher: try one more iteration first
(requiring progress), fall back to the continuation.  Fuel bounds the
number of iterations; it is always at least the remaining input length,
and every body in the embedded patterns consumes at least a character,
so the fuel never runs out on a viable path. -/
def mstar (m : Matcher) : Nat → Matcher
  | 0 => fun prev rest i caps k => k prev rest i caps
  | fuel+1 => fun prev rest i caps k =>
    match m prev rest i caps (fun p2 r2 i2 c2 =>
        if i < i2 then mstar m fuel p2 r2 i2 c2 k else none) with
    | some res => some res
    | none => k prev rest i caps

/-- Lazy iteration of a body matcher: try the continuation first, then
one more iteration (requiring progress). -/
def mstarL (m : Matcher) : Nat → Matcher
  | 0 => fun prev rest i caps k => k prev rest i caps
  | fuel+1 => fun prev rest i caps k =>
    match k prev rest i caps with
    | some res => some res
    | none =>
      m prev rest i caps (fun p2 r2 i2 c2 =>
        if i < i2 then mstarL m fuel p2 r2 i2 c2 k else none)

/-- The backtracking matcher.  Alternation tries the left branch first,
star is greedy, starL lazy, exactly as in the Python re module for the
patterns embedded here. -/
def mgo (fuel : Nat) : Re → Matcher
  | .eps => fun prev rest i caps k => k prev rest i caps
  | .cls p => fun _ rest i caps k =>
    match rest with
    | [] => none
    | c :: rs => if p c then k (some c) rs (i+1) caps else none
  | .seq a b => fun prev rest i caps k =>
    mgo fuel a prev rest i caps (fun p2 r2 i2 c2 => mgo fuel b p2 r2 i2 c2 k)
  | .alt a b => fun prev rest i caps k =>
    match mgo fuel a prev rest i caps k with
    | some res => some res
    | none => mgo fuel b prev rest i caps k
  | .star r => fun prev rest i caps k => mstar (mgo fuel r) fuel prev rest i caps k
  | .starL r => fun prev rest i caps k => mstarL (mgo fuel r) fuel prev rest i caps k
  | .grp g r => fun prev rest i caps k =>
    mgo fuel r prev rest i caps (fun p2 r2 i2 c2 => k p2 r2 i2 ((g, i, i2) :: c2))
  | .look r => fun prev rest i caps k =>
    match mgo fuel r prev rest i caps (fun _ _ _ c2 => some (i, c2)) with
    | some (_, c2) => k prev rest i c2
    | none => none
  | .wb => fun prev rest i caps k =>
    let pw := match prev with | some c => pyIsWordCh c | none => false
    let cw := match rest with | c :: _ => pyIsWordCh c | [] => false
    if pw != cw then k prev rest i caps else none
  | .bos => fun prev rest i caps k => if i = 0 then k prev rest i caps else none
  | .eol => fun prev rest i caps k =>
    if rest = [] || rest = ['\n'] then k prev rest i caps else none
  | .eos => fun prev rest i caps k => if rest = [] then k prev rest i caps else none

/-- Attempt to match re r at position i of s (the semantics of
pattern.match when i = 0); returns the end position and captures. -/
def matchAt (r : Re) (s : List Char) (i : Nat) : MRes :=
  let rest := s.drop i
  let prev := if i = 0 then none else (s.drop (i - 1)).head?
  mgo (rest.length + 1) r prev rest i [] (fun _ _ j c => some (j, c))

/-- Find the leftmost match at a position at or after i: (start, end, captures). -/
def searchFromAux (r : Re) (s : List Char) : Nat → Nat → Option (Nat × Nat × Caps)
  | 0, _ => none
  | fuel+1, i =>
    if i ≤ s.length then
      match matchAt r s i with
      | some (j, c) => some (i, j, c)
      | none => searchFromAux r s fuel (i+1)
    else none

/-- Python pattern.search: the leftmost match in s. -/
def reSearch (r : Re) (s : List Char) : Option (Nat × Nat × Caps) :=
  searchFromAux r s (s.length + 1) 0

/-- Helper for finditer: repeatedly search, resuming after each match
(and one past it when the match is empty, as the re module does). -/
def finditerAux (r : Re) (s : List Char) : Nat → Nat → List (Nat × Nat × Caps)
  | 0, _ => []
  | fuel+1, i =>
    match searchFromAux r s (s.length + 1 - i) i with
    | none => []
    | some (a, b, c) =>
      (a, b, c) :: finditerAux r s fuel (if a < b then b else b + 1)

/-- Python pattern.finditer: all non-overlapping matches, left to right. -/
def finditer (r : Re) (s : List Char) : List (Nat × Nat × Caps) :=
  finditerAux r s (s.length + 2) 0

/-- The span recorded for a capture group, if the group matched. -/
def capLookup (caps : Caps) (g : Nat) : Option (Nat × Nat) :=
  match caps.find? (fun x => x.1 = g) with
  | some x => some (x.2.1, x.2.2)
  | none => none

/-- Python match.groups() for a pattern with ng capture groups: the list
of captured substrings, None for a group that did not participate. -/
def groupsOf (s : List Char) (ng : Nat) (caps : Caps) : List (Option (List Char)) :=
  (List.range ng).map (fun g => (capLookup caps (g+1)).map (fun ab => subSlice s ab.1 ab.2))

/-- Python re.sub with a constant replacement, given the match list. -/
def reSubAux (s repl : List Char) : List (Nat × Nat × Caps) → Nat → List Char
  | [], pos => s.drop pos
  | (a, b, _) :: rest, pos => subSlice s pos a ++ repl ++ reSubAux s repl rest b

/-- Python re.sub(pattern, repl, s) for a constant replacement string. -/
def reSub (r : Re) (repl s : List Char) : List Char := reSubAux s repl (finditer r s) 0

/-- Python re.split given the match list: the pieces between matches. -/
def reSplitAux (s : List Char) : List (Nat × Nat × Caps) → Nat → List (List Char)
  | [], pos => [s.drop pos]
  | (a, b, _) :: rest, pos => subSlice s pos a :: reSplitAux s rest b

/-- Python re.split(pattern, s). -/
def reSplit (r : Re) (s : List Char) : List (List Char) := reSplitAux s (finditer r s) 0

/-- A compiled pattern: the regex and its number of capture groups. -/
structure CRe where
  re : Re
  ng : Nat

/-- Single literal character. -/
def rchar (c : Char) : Re := .cls (fun x => x = c)

/-- Literal character list. -/
def rstring : List Char → Re
  | [] => .eps
  | c :: cs => .seq (rchar c) (rstring cs)

/-- Literal string. -/
def rstr (s : String) : Re := rstring s.data

/-- Concatenation of a pattern list. -/
def rcat : List Re → Re
  | [] => .eps
  | [r] => r
  | r :: rs => .seq r (rcat rs)

/-- Ordered alternation of a pattern list (left branch preferred). -/
def ralts : List Re → Re
  | [] => .cls (fun _ => false)
  | [r] => r
  | r :: rs => .alt r (ralts rs)

/-- Greedy X+. -/
def rplus (r : Re) : Re := .seq r (.star r)

/-- Lazy X+?. -/
def rplusL (r : Re) : Re := .seq r (.starL r)

/-- Greedy X?. -/
def ropt (r : Re) : Re := .alt r .eps

/-- Counted repetition with no upper bound (greedy), for classes like 5-or-more. -/
def rrepAtLeast : Nat → Re → Re
  | 0, r => .star r
  | n+1, r => .seq r (rrepAtLeast n r)

/-- A character that is one of two given characters, e.g. the class of P and p. -/
def rone2 (a b : Char) : Re := .cls (fun c => c = a || c = b)

/-- A word written with its first letter in either case, e.g. the shape
of the sub-pattern matching Pin or pin in the Python sources. -/
def rword (a b : Char) (rest : String) : Re := .seq (rone2 a b) (rstr rest)

/-- Case-insensitive literal character (for patterns compiled with IGNORECASE). -/
def ciChar (c : Char) : Re := .cls (fun x => x.toLower = c.toLower)

/-- Case-insensitive literal string. -/
def ciString : List Char → Re
  | [] => .eps
  | c :: cs => .seq (ciChar c) (ciString cs)

/-- Case-insensitive literal string from a String. -/
def ciStr (s : String) : Re := ciString s.data

/-- The whitespace class. -/
def reWS : Re := .cls pyIsSpace

/-- Zero or more whitespace. -/
def reWSs : Re := .star reWS

/-- One or more whitespace. -/
def reWSp : Re := rplus reWS

/-- The digit class. -/
def reDigit : Re := .cls Char.isDigit

/-- One or more digits. -/
def reNum : Re := rplus reDigit

/-- The identifier shape A-Z_ followed by A-Z0-9_ repeated. -/
def reIdent : Re :=
  .seq (.cls (fun c => cUpper c || c = '_')) (.star (.cls (fun c => cUpper c || c.isDigit || c = '_')))

/-- The class = or :. -/
def reEqColon : Re := .cls (fun c => c = '=' || c = ':')

/-- One or more hex digits. -/
def reHexNum : Re := rplus (.cls cHex)

/-- The decimal-number shape: digits, optional dot, optional digits. -/
def reDecimal : Re := rcat [reNum, ropt (rchar '.'), .star reDigit]

/-- The any-character class in default mode (everything but newline). -/
def dotNoNL : Re := .cls (fun c => c ≠ '\n')

/-- The any-character class under DOTALL. -/
def dotAll : Re := .cls (fun _ => true)

/-! ### Compiled patterns of entity_extractor.py (TechnicalEntityExtractor.__init__) -/

/-- Pin pattern 1 of entity_extractor.py. -/
def pinPat1 : CRe :=
  ⟨rcat [rword 'P' 'p' "in", reWSp, .grp 1 reNum, reWSs, reEqColon, reWSs,
    .grp 2 (rcat [reIdent, .star (rcat [reWSp, reIdent])])], 2⟩

/-- Pin pattern 2 of entity_extractor.py. -/
def pinPat2 : CRe :=
  ⟨rcat [rword 'P' 'p' "in", reWSp, .grp 1 (.seq (.cls cUpper) reNum), reWSs, reEqColon,
    reWSs, .grp 2 reIdent], 2⟩

/-- Pin pattern 3 of entity_extractor.py. -/
def pinPat3 : CRe :=
  ⟨rcat [.grp 1 reIdent, reWSp, rstr "on", reWSp, rword 'P' 'p' "in", reWSp, .grp 2 reNum], 2⟩

/-- Register pattern 1: the word Register, optional at, then a hex address. -/
def regPat1 : CRe :=
  ⟨rcat [rword 'R' 'r' "egister", reWSp, ropt (rcat [rstr "at", reWSp]), rstr "0x",
    .grp 1 reHexNum], 1⟩

/-- Register pattern 2: hex literal, equals or colon, hex literal. -/
def regPat2 : CRe :=
  ⟨rcat [rstr "0x", .grp 1 reHexNum, reWSs, reEqColon, reWSs, rstr "0x", .grp 2 reHexNum], 2⟩

/-- Register pattern 3: identifier, the word Register, equals or colon, hex literal. -/
def regPat3 : CRe :=
  ⟨rcat [.grp 1 reIdent, reWSp, rword 'R' 'r' "egister", reWSs, reEqColon, reWSs, rstr "0x",
    .grp 2 reHexNum], 2⟩

/-- Register pattern 4: the word Address, equals or colon, hex literal. -/
def regPat4 : CRe :=
  ⟨rcat [rword 'A' 'a' "ddress", reWSs, reEqColon, reWSs, rstr "0x", .grp 1 reHexNum], 1⟩

/-- Voltage pattern 1: number, V, optional plus-minus tolerance. -/
def voltPat1 : CRe :=
  ⟨rcat [.grp 1 reDecimal, reWSs, rchar 'V', reWSs,
    ropt (rcat [rchar '±', reWSs, .grp 2 reDecimal, rchar '%'])], 2⟩

/-- Voltage pattern 2: identifier, equals or colon, number, V. -/
def voltPat2 : CRe :=
  ⟨rcat [.grp 1 reIdent, reWSs, reEqColon, reWSs, .grp 2 reDecimal, reWSs, rchar 'V'], 2⟩

/-- Voltage pattern 3: the word Voltage, equals or colon, number, V. -/
def voltPat3 : CRe :=
  ⟨rcat [rword 'V' 'v' "oltage", reWSs, reEqColon, reWSs, .grp 1 reDecimal, reWSs, rchar 'V'], 1⟩

/-- The timing unit alternation ns, us, ms, mu-s, s. -/
def reTimeUnit : Re := ralts [rstr "ns", rstr "us", rstr "ms", rstr "μs", rstr "s"]

/-- One or more letters or whitespace. -/
def reAlphaSp : Re := rplus (.cls (fun c => cLower c || cUpper c || pyIsSpace c))

/-- Timing pattern 1: number, unit, a phrase ending in time. -/
def timPat1 : CRe :=
  ⟨rcat [.grp 1 reDecimal, reWSs, .grp 2 reTimeUnit, reWSp,
    .grp 3 (.seq reAlphaSp (rstr "time"))], 3⟩

/-- Timing pattern 2: a phrase ending in time, equals or colon, number, unit. -/
def timPat2 : CRe :=
  ⟨rcat [.grp 1 (.seq reAlphaSp (rstr "time")), reWSs, reEqColon, reWSs, .grp 2 reDecimal,
    reWSs, .grp 3 reTimeUnit], 3⟩

/-- Timing pattern 3: the word Timing, equals or colon, number, unit. -/
def timPat3 : CRe :=
  ⟨rcat [rword 'T' 't' "iming", reWSs, reEqColon, reWSs, .grp 1 reDecimal, reWSs,
    .grp 2 reTimeUnit], 2⟩

/-- Timing pattern 4: the word Delay, equals or colon, number, unit. -/
def timPat4 : CRe :=
  ⟨rcat [rword 'D' 'd' "elay", reWSs, reEqColon, reWSs, .grp 1 reDecimal, reWSs,
    .grp 2 reTimeUnit], 2⟩

/-- The frequency unit alternation MHz, GHz, KHz, Hz. -/
def reFreqUnit : Re := ralts [rstr "MHz", rstr "GHz", rstr "KHz", rstr "Hz"]

/-- Frequency pattern 1: number then unit. -/
def freqPat1 : CRe := ⟨rcat [.grp 1 reDecimal, reWSs, .grp 2 reFreqUnit], 2⟩

/-- Frequency pattern 2: the word Frequency, equals or colon, number, unit. -/
def freqPat2 : CRe :=
  ⟨rcat [rword 'F' 'f' "requency", reWSs, reEqColon, reWSs, .grp 1 reDecimal, reWSs,
    .grp 2 reFreqUnit], 2⟩

/-- Frequency pattern 3: the word Clock, equals or colon, number, unit. -/
def freqPat3 : CRe :=
  ⟨rcat [rword 'C' 'c' "lock", reWSs, reEqColon, reWSs, .grp 1 reDecimal, reWSs,
    .grp 2 reFreqUnit], 2⟩

/-- The current unit alternation mA, A, mu-A. -/
def reCurUnit : Re := ralts [rstr "mA", rstr "A", rstr "μA"]

/-- Current pattern 1: number, unit, optional plus-minus tolerance. -/
def curPat1 : CRe :=
  ⟨rcat [.grp 1 reDecimal, reWSs, .grp 2 reCurUnit, reWSs,
    ropt (rcat [rchar '±', reWSs, .grp 3 reDecimal, rchar '%'])], 3⟩

/-- Current pattern 2: the word Current, equals or colon, number, unit. -/
def curPat2 : CRe :=
  ⟨rcat [rword 'C' 'c' "urrent", reWSs, reEqColon, reWSs, .grp 1 reDecimal, reWSs,
    .grp 2 reCurUnit], 2⟩

/-- Current pattern 3: the words Max Current, equals or colon, number, unit. -/
def curPat3 : CRe :=
  ⟨rcat [rword 'M' 'm' "ax", reWSp, rword 'C' 'c' "urrent", reWSs, reEqColon, reWSs,
    .grp 1 reDecimal, reWSs, .grp 2 reCurUnit], 2⟩

/-- Bitfield pattern 1: Bit, bracketed high colon low range, equals or colon, identifier. -/
def bitPat1 : CRe :=
  ⟨rcat [rword 'B' 'b' "it", reWSs, rchar '[', .grp 1 reNum, rchar ':', .grp 2 reNum,
    rchar ']', reWSs, reEqColon, reWSs, .grp 3 reIdent], 3⟩

/-- Bitfield pattern 2: Bit, number, equals or colon, 0 or 1, equals or colon, identifier. -/
def bitPat2 : CRe :=
  ⟨rcat [rword 'B' 'b' "it", reWSp, .grp 1 reNum, reWSs, reEqColon, reWSs,
    .grp 2 (rone2 '0' '1'), reWSs, reEqColon, reWSs, .grp 3 reIdent], 3⟩

/-- Bitfield pattern 3: Bit or Bits, number, optional dash number, equals or colon,
identifier.  The second capture group is optional and may not participate. -/
def bitPat3 : CRe :=
  ⟨rcat [rword 'B' 'b' "it", ropt (rchar 's'), reWSp, .grp 1 reNum,
    ropt (.seq (rchar '-') (.grp 2 reNum)), reWSs, reEqColon, reWSs, .grp 3 reIdent], 3⟩

/-- Error pattern 1: Error, optional Code, hex code, separator, lazy description up to
a newline or the end. -/
def errPat1 : CRe :=
  ⟨rcat [rword 'E' 'e' "rror", reWSp, ropt (rcat [rword 'C' 'c' "ode", reWSp]), rstr "0x",
    .grp 1 reHexNum, reWSs, reEqColon, reWSs, .grp 2 (rplusL dotNoNL),
    .look (.alt (rchar '\n') .eol)], 2⟩

/-- Error pattern 2: hex code, separator, an identifier ending in underscore ERROR. -/
def errPat2 : CRe :=
  ⟨rcat [rstr "0x", .grp 1 reHexNum, reWSs, reEqColon, reWSs,
    .grp 2 (rcat [reIdent, rstr "_ERROR"])], 2⟩

/-- Error pattern 3: Error, a decimal code, separator, lazy description. -/
def errPat3 : CRe :=
  ⟨rcat [rword 'E' 'e' "rror", reWSp, .grp 1 reNum, reWSs, reEqColon, reWSs,
    .grp 2 (rplusL dotNoNL), .look (.alt (rchar '\n') .eol)], 2⟩

/-- Procedure pattern 1 (DOTALL): Step, number, colon or dot, lazy description up to
the next Step line, a blank line or the end. -/
def procPat1 : CRe :=
  ⟨rcat [rword 'S' 's' "tep", reWSp, .grp 1 reNum, reWSs, .cls (fun c => c = ':' || c = '.'),
    reWSs, .grp 2 (rplusL dotAll),
    .look (ralts [rcat [rchar '\n', rword 'S' 's' "tep"], rstr "\n\n", .eos])], 2⟩

/-- Procedure pattern 2 (MULTILINE, no anchors): number dot, a capitalized sentence. -/
def procPat2 : CRe :=
  ⟨rcat [.grp 1 reNum, rchar '.', reWSp,
    .grp 2 (rcat [.cls cUpper, rplus (.cls (fun c => c ≠ '.')), rchar '.'])], 2⟩

/-- Procedure pattern 3 (DOTALL): To, a lowercase phrase, colon, newline, lazy body. -/
def procPat3 : CRe :=
  ⟨rcat [rword 'T' 't' "o", reWSp,
    .grp 1 (rcat [rplus (.cls cLower), reWSp, rplus (.cls (fun c => c ≠ ':'))]),
    rchar ':', reWSs, rchar '\n', .grp 2 (rplusL dotAll),
    .look (.alt (rstr "\n\n") .eos)], 2⟩

/-- The identifier shape under IGNORECASE: a letter or underscore followed by
letters, digits or underscores. -/
def ciIdent : Re :=
  .seq (.cls (fun c => c.isAlpha || c = '_'))
    (.star (.cls (fun c => c.isAlpha || c.isDigit || c = '_')))

/-- Voltage-rail name pattern of extract_voltage_name (IGNORECASE). -/
def railPat : CRe :=
  ⟨rcat [.grp 1 (rcat [ciIdent,
      .star (.seq (rchar '_') (rplus (.cls (fun c => c.isAlpha || c.isDigit))))]),
    reWSp, ralts [ciStr "voltage", ciStr "rail", ciStr "supply"]], 1⟩

/-- Component name pattern of extract_voltage_name (IGNORECASE). -/
def compPat : CRe :=
  ⟨rcat [.grp 1 ciIdent, reWSp, ralts [ciStr "requires", ciStr "operates"]], 1⟩

/-- Clock name pattern of extract_frequency_name (IGNORECASE). -/
def clockPat : CRe :=
  ⟨rcat [.grp 1 ciIdent, reWSp, ralts [ciStr "clock", ciStr "frequency"]], 1⟩

/-- Current kind pattern of extract_current_name (IGNORECASE). -/
def curNamePat : CRe :=
  ⟨rcat [.grp 1 (ralts [ciStr "maximum", ciStr "typical", ciStr "minimum", ciStr "idle",
    ciStr "peak"]), reWSp, ciStr "current"], 1⟩

/-- The pin recognizers, in source order. -/
def pinPatterns : List CRe := [pinPat1, pinPat2, pinPat3]

/-- The register recognizers, in source order. -/
def registerPatterns : List CRe := [regPat1, regPat2, regPat3, regPat4]

/-- The voltage recognizers, in source order. -/
def voltagePatterns : List CRe := [voltPat1, voltPat2, voltPat3]

/-- The timing recognizers, in source order. -/
def timingPatterns : List CRe := [timPat1, timPat2, timPat3, timPat4]

/-- The frequency recognizers, in source order. -/
def frequencyPatterns : List CRe := [freqPat1, freqPat2, freqPat3]

/-- The current recognizers, in source order. -/
def currentPatterns : List CRe := [curPat1, curPat2, curPat3]

/-- The bitfield recognizers, in source order. -/
def bitfieldPatterns : List CRe := [bitPat1, bitPat2, bitPat3]

/-- The error-code recognizers, in source order. -/
def errorPatterns : List CRe := [errPat1, errPat2, errPat3]

/-- The procedure recognizers, in source order. -/
def procedurePatterns : List CRe := [procPat1, procPat2, procPat3]

/-! ### Data model and extractors of entity_extractor.py -/

/-- The EntityType enumeration of entity_extractor.py. -/
inductive EntityType where
  | pin
  | register
  | voltage
  | timing
  | frequency
  | current
  | bitfield
  | procedure_step
  | error_code
  | configuration
deriving DecidableEq, Repr

/-- The TechnicalEntity dataclass.  Metadata values are Option String
because at runtime a dictionary slot could hold None. -/
structure TechnicalEntity where
  entity_type : EntityType
  name : String
  value : Option String
  unit : Option String
  context : String
  metadata : List (String × Option String)
deriving DecidableEq, Repr

/-- Python f-string interpolation of a possibly-None capture. -/
def pyFmt : Option (List Char) → String
  | some l => String.mk l
  | none => "None"

/-- Python truthiness of a possibly-None string. -/
def pyTruthyO : Option (List Char) → Bool
  | some l => !l.isEmpty
  | none => false

/-- The deduplication key of _deduplicate_entities: (category, name, value). -/
def dedupKey (e : TechnicalEntity) : EntityType × String × Option String :=
  (e.entity_type, e.name, e.value)

/-- The seen-set loop body of _deduplicate_entities. -/
def dedupGo : List (EntityType × String × Option String) → List TechnicalEntity →
    List TechnicalEntity
  | _, [] => []
  | seen, e :: es =>
    if dedupKey e ∈ seen then dedupGo seen es
    else e :: dedupGo (dedupKey e :: seen) es

/-- _deduplicate_entities: keep the first entity for each key, preserving order. -/
def deduplicate_entities (l : List TechnicalEntity) : List TechnicalEntity := dedupGo [] l

/-- _get_context: the trimmed slice of text from w before the match to w after. -/
def getContext (text : List Char) (a b w : Nat) : String :=
  String.mk (pystrip (subSlice text (a - w) (b + w)))

/-- The per-match body of extract_pin_info.  The catch-all branch covers
only capture shapes on which the Python code would raise; those shapes
cannot arise for the pin patterns, whose two groups are mandatory. -/
def pinEntityOfMatch (text : List Char) (ng : Nat) (m : Nat × Nat × Caps) :
    List TechnicalEntity :=
  if ng = 2 then
    match groupsOf text ng m.2.2 with
    | [pinNum, some function] =>
      [⟨.pin, "Pin " ++ pyFmt pinNum, some (String.mk (pystrip function)), none,
        getContext text m.1 m.2.1 100, [("pin_number", pinNum.map String.mk)]⟩]
    | _ => []
  else []

/-- extract_pin_info. -/
def extractPinInfoL (text : List Char) : List TechnicalEntity :=
  deduplicate_entities (pinPatterns.flatMap (fun p =>
    (finditer p.re text).flatMap (fun m => pinEntityOfMatch text p.ng m)))

/-- Python str.replace of underscores by nothing, as used by the register
disambiguation check. -/
def stripUnderscores (l : List Char) : List Char := l.filter (fun c => c ≠ '_')

/-- The two-capture branch of extract_register_info: if the first capture is
alphabetic once underscores are stripped it is a register name and the second
capture the address; otherwise the first is an address and the second a value. -/
def registerEntityTwo (g0 g1 : List Char) (ctx : String) : TechnicalEntity :=
  if pyIsAlphaStr (stripUnderscores g0) then
    ⟨.register, String.mk g0, some ("0x" ++ String.mk (pyUpperL g1)), none, ctx,
      [("address", some ("0x" ++ String.mk (pyUpperL g1)))]⟩
  else
    ⟨.register, "Register 0x" ++ String.mk (pyUpperL g0),
      some ("0x" ++ String.mk (pyUpperL g1)), none, ctx,
      [("address", some ("0x" ++ String.mk (pyUpperL g0))),
       ("value", some ("0x" ++ String.mk (pyUpperL g1)))]⟩

/-- The per-match body of extract_register_info.  Catch-all branches cover
only shapes on which the Python code would raise; the register patterns have
mandatory groups, so they cannot arise. -/
def registerEntityOfMatch (text : List Char) (ng : Nat) (m : Nat × Nat × Caps) :
    List TechnicalEntity :=
  let ctx := getContext text m.1 m.2.1 100
  if ng = 1 then
    match groupsOf text ng m.2.2 with
    | [some addr] =>
      [⟨.register, "Register", some ("0x" ++ String.mk (pyUpperL addr)), none, ctx,
        [("address", some ("0x" ++ String.mk (pyUpperL addr)))]⟩]
    | _ => []
  else if ng = 2 then
    match groupsOf text ng m.2.2 with
    | [some g0, some g1] => [registerEntityTwo g0 g1 ctx]
    | _ => []
  else []

/-- extract_register_info. -/
def extractRegisterInfoL (text : List Char) : List TechnicalEntity :=
  deduplicate_entities (registerPatterns.flatMap (fun p =>
    (finditer p.re text).flatMap (fun m => registerEntityOfMatch text p.ng m)))

/-- _extract_voltage_name: scan the context before the match for a rail or
component cue, else use the generic name. -/
def extractVoltageName (context : List Char) (position : Nat) : String :=
  let pre := context.take position
  match reSearch railPat.re pre with
  | some m => pyFmt ((groupsOf pre 1 m.2.2).getD 0 none) ++ " Voltage"
  | none =>
    match reSearch compPat.re pre with
    | some m => pyFmt ((groupsOf pre 1 m.2.2).getD 0 none) ++ " Operating Voltage"
    | none => "Voltage Specification"

/-- The per-match body of extract_voltage_specs. -/
def voltageEntityOfMatch (text : List Char) (ng : Nat) (m : Nat × Nat × Caps) :
    List TechnicalEntity :=
  match groupsOf text ng m.2.2 with
  | voltage :: restG =>
    let tolerance : Option (List Char) :=
      match restG with
      | some t :: _ => if !t.isEmpty then some t else none
      | _ => none
    let context := getContext text m.1 m.2.1 100
    let name := extractVoltageName context.data m.1
    let metadata := [("voltage", voltage.map String.mk)] ++
      (match tolerance with
       | some t => [("tolerance", some ("±" ++ String.mk t ++ "%"))]
       | none => [])
    [⟨.voltage, name, voltage.map String.mk, some "V", context, metadata⟩]
  | [] => []

/-- extract_voltage_specs. -/
def extractVoltageSpecsL (text : List Char) : List TechnicalEntity :=
  deduplicate_entities (voltagePatterns.flatMap (fun p =>
    (finditer p.re text).flatMap (fun m => voltageEntityOfMatch text p.ng m)))

/-- The per-match body of extract_timing_specs.  Only three-capture
recognizers produce an entity; the capture order is resolved by whether the
third capture ends in the word time.  Catch-all branches cover only shapes on
which the Python code would raise (a None where a string method is called);
the relevant groups are mandatory, so they cannot arise. -/
def timingEntityOfMatch (text : List Char) (ng : Nat) (m : Nat × Nat × Caps) :
    List TechnicalEntity :=
  if ng = 3 then
    match groupsOf text ng m.2.2 with
    | [g0, g1, some g2] =>
      if "time".data.isSuffixOf g2 then
        [⟨.timing, String.mk (pystrip g2), g0.map String.mk, g1.map String.mk,
          getContext text m.1 m.2.1 100,
          [("time_value", g0.map String.mk), ("time_unit", g1.map String.mk)]⟩]
      else
        match g0 with
        | some n =>
          [⟨.timing, String.mk (pystrip n), g1.map String.mk, some (String.mk g2),
            getContext text m.1 m.2.1 100,
            [("time_value", g1.map String.mk), ("time_unit", some (String.mk g2))]⟩]
        | none => []
    | _ => []
  else []

/-- extract_timing_specs. -/
def extractTimingSpecsL (text : List Char) : List TechnicalEntity :=
  deduplicate_entities (timingPatterns.flatMap (fun p =>
    (finditer p.re text).flatMap (fun m => timingEntityOfMatch text p.ng m)))

/-- _extract_frequency_name. -/
def extractFrequencyName (context : List Char) (position : Nat) : String :=
  let pre := context.take position
  match reSearch clockPat.re pre with
  | some m => pyFmt ((groupsOf pre 1 m.2.2).getD 0 none) ++ " Clock"
  | none => "Frequency Specification"

/-- The per-match body of extract_frequency_specs. -/
def frequencyEntityOfMatch (text : List Char) (ng : Nat) (m : Nat × Nat × Caps) :
    List TechnicalEntity :=
  if 2 ≤ ng then
    match groupsOf text ng m.2.2 with
    | freq :: unit :: _ =>
      let context := getContext text m.1 m.2.1 100
      let name := extractFrequencyName context.data m.1
      [⟨.frequency, name, freq.map String.mk, unit.map String.mk, context,
        [("frequency", freq.map String.mk), ("unit", unit.map String.mk)]⟩]
    | _ => []
  else []

/-- extract_frequency_specs. -/
def extractFrequencySpecsL (text : List Char) : List TechnicalEntity :=
  deduplicate_entities (frequencyPatterns.flatMap (fun p =>
    (finditer p.re text).flatMap (fun m => frequencyEntityOfMatch text p.ng m)))

/-- _extract_current_name.  The inner catch-all covers only the shape on
which the Python code would raise (None.capitalize()); the group is
mandatory, so it cannot arise. -/
def extractCurrentName (context : List Char) (position : Nat) : String :=
  let pre := context.take position
  match reSearch curNamePat.re pre with
  | some m =>
    match (groupsOf pre 1 m.2.2).getD 0 none with
    | some g => String.mk (pyCapitalize g) ++ " Current"
    | none => "Current Specification"
  | none => "Current Specification"

/-- The per-match body of extract_current_specs. -/
def currentEntityOfMatch (text : List Char) (ng : Nat) (m : Nat × Nat × Caps) :
    List TechnicalEntity :=
  if 2 ≤ ng then
    match groupsOf text ng m.2.2 with
    | current :: unit :: restG =>
      let tolerance : Option (List Char) :=
        match restG with
        | some t :: _ => if !t.isEmpty then some t else none
        | _ => none
      let context := getContext text m.1 m.2.1 100
      let name := extractCurrentName context.data m.1
      let metadata := [("current", current.map String.mk), ("unit", unit.map String.mk)] ++
        (match tolerance with
         | some t => [("tolerance", some ("±" ++ String.mk t ++ "%"))]
         | none => [])
      [⟨.current, name, current.map String.mk, unit.map String.mk, context, metadata⟩]
    | _ => []
  else []

/-- extract_current_specs. -/
def extractCurrentSpecsL (text : List Char) : List TechnicalEntity :=
  deduplicate_entities (currentPatterns.flatMap (fun p =>
    (finditer p.re text).flatMap (fun m => currentEntityOfMatch text p.ng m)))

/-- The per-match body of extract_bitfield_info: a range entity when the
second and third captures are truthy, otherwise a single-bit entity. -/
def bitfieldEntityOfMatch (text : List Char) (ng : Nat) (m : Nat × Nat × Caps) :
    List TechnicalEntity :=
  if 2 ≤ ng then
    match groupsOf text ng m.2.2 with
    | [g0, g1, g2] =>
      if pyTruthyO g1 && pyTruthyO g2 then
        [⟨.bitfield, "Bits[" ++ pyFmt g0 ++ ":" ++ pyFmt g1 ++ "]", g2.map String.mk, none,
          getContext text m.1 m.2.1 100,
          [("start_bit", g0.map String.mk), ("end_bit", g1.map String.mk)]⟩]
      else
        [⟨.bitfield, "Bit " ++ pyFmt g0, g2.map String.mk, none,
          getContext text m.1 m.2.1 100, [("bit", g0.map String.mk)]⟩]
    | _ => []
  else []

/-- extract_bitfield_info. -/
def extractBitfieldInfoL (text : List Char) : List TechnicalEntity :=
  deduplicate_entities (bitfieldPatterns.flatMap (fun p =>
    (finditer p.re text).flatMap (fun m => bitfieldEntityOfMatch text p.ng m)))

/-- The per-match body of extract_error_codes.  The catch-all covers only
the shape on which the Python code would raise (None.strip()); the
description groups are mandatory, so it cannot arise. -/
def errorEntityOfMatch (text : List Char) (ng : Nat) (m : Nat × Nat × Caps) :
    List TechnicalEntity :=
  match groupsOf text ng m.2.2 with
  | [code, some description] =>
    [⟨.error_code, "Error Code " ++ pyFmt code, some (String.mk (pystrip description)),
      none, getContext text m.1 m.2.1 100, [("code", code.map String.mk)]⟩]
  | _ => []

/-- extract_error_codes. -/
def extractErrorCodesL (text : List Char) : List TechnicalEntity :=
  deduplicate_entities (errorPatterns.flatMap (fun p =>
    (finditer p.re text).flatMap (fun m => errorEntityOfMatch text p.ng m)))

/-- The per-match body of extract_procedures.  The catch-all covers only
the shape on which the Python code would raise (None.split()); the
description groups are mandatory, so it cannot arise. -/
def procedureEntityOfMatch (text : List Char) (ng : Nat) (m : Nat × Nat × Caps) :
    List TechnicalEntity :=
  if ng = 2 then
    match groupsOf text ng m.2.2 with
    | [stepNum, some stepDesc] =>
      [⟨.procedure_step, "Step " ++ pyFmt stepNum,
        some (String.mk (joinSep [' '] (pysplitWs stepDesc))), none,
        getContext text m.1 m.2.1 150, [("step_number", stepNum.map String.mk)]⟩]
    | _ => []
  else []

/-- extract_procedures. -/
def extractProceduresL (text : List Char) : List TechnicalEntity :=
  deduplicate_entities (procedurePatterns.flatMap (fun p =>
    (finditer p.re text).flatMap (fun m => procedureEntityOfMatch text p.ng m)))

/-- extract_all_entities: the nine category extractors concatenated in
source order; no further deduplication happens across categories. -/
def extractAllEntitiesL (text : List Char) : List TechnicalEntity :=
  extractPinInfoL text ++ extractRegisterInfoL text ++ extractVoltageSpecsL text ++
  extractTimingSpecsL text ++ extractFrequencySpecsL text ++ extractCurrentSpecsL text ++
  extractBitfieldInfoL text ++ extractErrorCodesL text ++ extractProceduresL text

/-- String-level API of extract_all_entities. -/
def extract_all_entities (text : String) : List TechnicalEntity :=
  extractAllEntitiesL text.data

/-- String-level API of extract_register_info. -/
def extract_register_info (text : String) : List TechnicalEntity :=
  extractRegisterInfoL text.data

/-- String-level API of extract_pin_info. -/
def extract_pin_info (text : String) : List TechnicalEntity :=
  extractPinInfoL text.data

/-! ### Embedding of table_reconstructor.py -/

/-- The Table dataclass.  A cell is Option String because a row produced
from a raw pattern match is list(match.groups()), in which an optional
group that did not participate is None. -/
structure Table where
  headers : List String
  rows : List (List (Option String))
  context : String
  table_type : String
deriving DecidableEq, Repr

/-- Header pattern 1: Pin Name Function. -/
def hdrPat1 : Re := rcat [rword 'P' 'p' "in", reWSp, rword 'N' 'n' "ame", reWSp,
  rword 'F' 'f' "unction"]

/-- Header pattern 2: Pin Number Signal Name Description. -/
def hdrPat2 : Re := rcat [rword 'P' 'p' "in", reWSp, rword 'N' 'n' "umber", reWSp,
  rword 'S' 's' "ignal", reWSp, rword 'N' 'n' "ame", reWSp, rword 'D' 'd' "escription"]

/-- Header pattern 3: Pin Type Description. -/
def hdrPat3 : Re := rcat [rword 'P' 'p' "in", reWSp, rword 'T' 't' "ype", reWSp,
  rword 'D' 'd' "escription"]

/-- Header pattern 4: Register Address Description. -/
def hdrPat4 : Re := rcat [rword 'R' 'r' "egister", reWSp, rword 'A' 'a' "ddress", reWSp,
  rword 'D' 'd' "escription"]

/-- Header pattern 5: Address Name Access Default. -/
def hdrPat5 : Re := rcat [rword 'A' 'a' "ddress", reWSp, rword 'N' 'n' "ame", reWSp,
  rword 'A' 'a' "ccess", reWSp, rword 'D' 'd' "efault"]

/-- Header pattern 6: Bit Field Access Description. -/
def hdrPat6 : Re := rcat [rword 'B' 'b' "it", reWSp, rword 'F' 'f' "ield", reWSp,
  rword 'A' 'a' "ccess", reWSp, rword 'D' 'd' "escription"]

/-- Header pattern 7: Parameter Min Typ Max Unit. -/
def hdrPat7 : Re := rcat [rword 'P' 'p' "arameter", reWSp, rword 'M' 'm' "in", reWSp,
  rword 'T' 't' "yp", reWSp, rword 'M' 'm' "ax", reWSp, rword 'U' 'u' "nit"]

/-- Header pattern 8: Symbol Parameter Conditions Min Max. -/
def hdrPat8 : Re := rcat [rword 'S' 's' "ymbol", reWSp, rword 'P' 'p' "arameter", reWSp,
  rword 'C' 'c' "onditions", reWSp, rword 'M' 'm' "in", reWSp, rword 'M' 'm' "ax"]

/-- Header pattern 9: Name Value Description. -/
def hdrPat9 : Re := rcat [rword 'N' 'n' "ame", reWSp, rword 'V' 'v' "alue", reWSp,
  rword 'D' 'd' "escription"]

/-- Header pattern 10: Item Specification. -/
def hdrPat10 : Re := rcat [rword 'I' 'i' "tem", reWSp, rword 'S' 's' "pecification"]

/-- The header patterns of TableReconstructor.__init__, in source order. -/
def headerPatterns : List Re :=
  [hdrPat1, hdrPat2, hdrPat3, hdrPat4, hdrPat5, hdrPat6, hdrPat7, hdrPat8, hdrPat9, hdrPat10]

/-- The pin_row pattern. -/
def pinRow : CRe :=
  ⟨rcat [.bos, reWSs, .grp 1 reNum, reWSp, .grp 2 reIdent, reWSp, .grp 3 (rplus dotNoNL),
    .eol], 3⟩

/-- The register_row pattern. -/
def registerRow : CRe :=
  ⟨rcat [.bos, reWSs, rstr "0x", .grp 1 reHexNum, reWSp, .grp 2 reIdent, reWSp,
    .grp 3 (rplus dotNoNL), .eol], 3⟩

/-- The spec_row pattern: identifier then three number and optional-unit pairs. -/
def specRow : CRe :=
  ⟨rcat [.bos, reWSs, .grp 1 reIdent, reWSp, .grp 2 reDecimal, reWSs,
    .grp 3 (.star (.cls pyIsWordCh)), reWSp, .grp 4 reDecimal, reWSs,
    .grp 5 (.star (.cls pyIsWordCh)), reWSp, .grp 6 reDecimal, reWSs,
    .grp 7 (.star (.cls pyIsWordCh))], 7⟩

/-- The bit_field_row pattern: optional bracketed bit index or range, identifier,
access-mode token, free text.  Its second capture group is optional. -/
def bitFieldRow : CRe :=
  ⟨rcat [.bos, reWSs, ropt (rchar '['), .grp 1 reNum,
    ropt (.seq (rchar ':') (.grp 2 reNum)), ropt (rchar ']'), reWSp, .grp 3 reIdent, reWSp,
    .grp 4 (rcat [rone2 'R' 'W', ropt (rchar '/'), ropt (rone2 'W' 'O')]), reWSp,
    .grp 5 (rplus dotNoNL), .eol], 5⟩

/-- The row_patterns dictionary of TableReconstructor.__init__, in insertion order. -/
def rowPatterns : List (String × CRe) :=
  [("pin_row", pinRow), ("register_row", registerRow), ("spec_row", specRow),
   ("bit_field_row", bitFieldRow)]

/-- The Table marker of _split_into_sections. -/
def mTable : Re := rcat [rword 'T' 't' "able", reWSp, reNum,
  .cls (fun c => c = ':' || c = '.'), reWSs]

/-- The Figure marker of _split_into_sections. -/
def mFigure : Re := rcat [rword 'F' 'f' "igure", reWSp, reNum,
  .cls (fun c => c = ':' || c = '.'), reWSs]

/-- The horizontal-rule marker of _split_into_sections: a run of dash or
equals characters between two newlines. -/
def mRule : Re := rcat [rchar '\n', reWSs, rplus (.cls (fun c => c = '-' || c = '=')),
  reWSs, rchar '\n']

/-- The marker list of _split_into_sections, in source order. -/
def sectionMarkers : List Re := [mTable, mFigure, mRule]

/-- One marker pattern pass of _split_into_sections: walk its matches with
the shared (sections, current position) state, appending the slice from the
current position to a match start whenever the start lies beyond it, and
always moving the current position to the match start. -/
def markerFold (text : List Char) (st : List (List Char) × Nat) (r : Re) :
    List (List Char) × Nat :=
  (finditer r text).foldl
    (fun st2 m =>
      (if st2.2 < m.1 then st2.1 ++ [subSlice text st2.2 m.1] else st2.1, m.1)) st

/-- The marker pass of _split_into_sections: the raw slice list before the
paragraph fallback and the final strip-and-drop-empties step. -/
def markerSections (text : List Char) : List (List Char) :=
  let st := sectionMarkers.foldl (markerFold text) ([], 0)
  if st.2 < text.length then st.1 ++ [text.drop st.2] else st.1

/-- _split_into_sections. -/
def splitIntoSectionsL (text : List Char) : List (List Char) :=
  let sections := markerSections text
  let sections := if sections.length ≤ 1 then splitSep "\n\n".data text else sections
  (sections.map pystrip).filter (fun s => !s.isEmpty)

/-- The run-of-two-or-more-whitespace pattern used to split header cells. -/
def ws2Re : Re := rrepAtLeast 2 reWS

/-- The pipe-or-comma delimiter pattern used to split header cells. -/
def pipeCommaRe : Re := rcat [reWSs, .cls (fun c => c = '|' || c = ','), reWSs]

/-- _extract_headers. -/
def extractHeadersL (line : List Char) : List String :=
  let line2 := reSub reWSp " ".data (pystrip line)
  let headers := reSplit ws2Re line2
  let headers := if headers.length ≤ 1 then reSplit pipeCommaRe line2 else headers
  let headers := if headers.length ≤ 1 then pysplitWs line2 else headers
  ((headers.map pystrip).filter (fun h => !h.isEmpty)).map String.mk

/-- _determine_table_type. -/
def determineTableTypeL (line : List Char) : String :=
  let hl := pyLower line
  if containsSub "pin".data hl then "pin_table"
  else if containsSub "register".data hl || containsSub "address".data hl then
    "register_table"
  else if containsSub "bit".data hl && containsSub "field".data hl then "bit_field_table"
  else if ["parameter", "specification", "min", "max"].any
      (fun w => containsSub w.data hl) then "spec_table"
  else if containsSub "error".data hl || containsSub "code".data hl then "error_table"
  else "generic_table"

/-- The pin cue of _guess_table_type_from_content. -/
def gPin : Re := rcat [.wb, rstr "pin", reWSp, reNum, .wb]

/-- The hex cue of _guess_table_type_from_content (the content is lower-cased first). -/
def gHex : Re := rcat [rstr "0x", rplus (.cls (fun c => c.isDigit || ('a' ≤ c && c ≤ 'f')))]

/-- The decimal-with-unit cue of _guess_table_type_from_content. -/
def gDec : Re := rcat [reNum, rchar '.', reNum, reWSs, .cls (fun c => c = 'v' || c = 'm')]

/-- _guess_table_type_from_content. -/
def guessTableTypeL (lines : List (List Char)) : String :=
  let content := pyLower (joinSep " ".data lines)
  if (reSearch gPin content).isSome then "pin_table"
  else if (reSearch gHex content).isSome then "register_table"
  else if (reSearch gDec content).isSome then "spec_table"
  else "generic_table"

/-- The count of the up-to-three following lines whose token count is
within one of n, from _heuristic_header_detection. -/
def countSimilar (lines : List (List Char)) (idx n : Nat) : Nat :=
  ((List.range' (idx+1) (min (idx+4) lines.length - (idx+1))).filter
    (fun j => Nat.dist (pysplitWs (lines.getD j [])).length n ≤ 1)).length

/-- The scan loop of _heuristic_header_detection. -/
def heuristicGo (all : List (List Char)) : List (List Char) → Nat →
    Option (List String × Nat × String)
  | [], _ => none
  | l :: ls, idx =>
    if all.length - 1 ≤ idx then heuristicGo all ls (idx+1)
    else
      let words := pysplitWs l
      if 2 ≤ words.length && words.length ≤ 6 then
        if 2 ≤ countSimilar all idx words.length then
          some (extractHeadersL l, idx, guessTableTypeL ((all.drop idx).take 5))
        else heuristicGo all ls (idx+1)
      else heuristicGo all ls (idx+1)

/-- _heuristic_header_detection. -/
def heuristicHeaderDetection (lines : List (List Char)) :
    Option (List String × Nat × String) :=
  heuristicGo lines lines 0

/-- The row-pattern loop of _extract_row: a pattern is tried only when the
table type is a substring of the pattern name or the table type is
generic_table, and its raw groups are returned on the first match. -/
def rowPatternLoop (tt : String) (line : List Char) :
    List (String × CRe) → Option (List (Option String))
  | [] => none
  | (pname, p) :: rest =>
    if containsSub tt.data pname.data || tt = "generic_table" then
      match matchAt p.re line 0 with
      | some r => some ((groupsOf line p.ng r.2).map (fun o => o.map String.mk))
      | none => rowPatternLoop tt line rest
    else rowPatternLoop tt line rest

/-- Stable insertion of a span into a list sorted by start position. -/
def insertByStart (x : Nat × Nat) : List (Nat × Nat) → List (Nat × Nat)
  | [] => [x]
  | y :: ys => if x.1 ≤ y.1 then x :: y :: ys else y :: insertByStart x ys

/-- Stable sort of spans by start position (the list.sort call of
_intelligent_split with key match start). -/
def sortByStart : List (Nat × Nat) → List (Nat × Nat)
  | [] => []
  | x :: xs => insertByStart x (sortByStart xs)

/-- Python str.isspace. -/
def pyIsSpaceStr (cs : List Char) : Bool := !cs.isEmpty && cs.all pyIsSpace

/-- The column-building loop of _intelligent_split: stripped between-text,
then the matched text, then the stripped remainder. -/
def buildColumnsGo (line : List Char) : List (Nat × Nat) → Nat → List (List Char)
  | [], lastEnd =>
    if lastEnd < line.length then
      (let remaining := pystrip (line.drop lastEnd)
       if !remaining.isEmpty then [remaining] else [])
    else []
  | (s, e) :: rest, lastEnd =>
    (if lastEnd < s then
      (let bt := pystrip (subSlice line lastEnd s)
       if !bt.isEmpty && !pyIsSpaceStr bt then [bt] else [])
     else []) ++ (subSlice line s e :: buildColumnsGo line rest e)

/-- The pattern list of _intelligent_split: hex, integer, decimal, identifier. -/
def isPatterns : List Re :=
  [rcat [rstr "0x", reHexNum], rcat [.wb, reNum, .wb],
   rcat [.wb, reNum, rchar '.', reNum, .wb], rcat [.wb, reIdent, .wb]]

/-- _intelligent_split. -/
def intelligentSplitL (line : List Char) (expectedCols : Nat) : List (Option String) :=
  let parts := reSplit ws2Re (pystrip line)
  if parts.length = expectedCols then parts.map (fun p => some (String.mk p))
  else
    let parts2 := splitSep "\t".data (pystrip line)
    if parts2.length = expectedCols then parts2.map (fun p => some (String.mk p))
    else
      let ms := sortByStart (isPatterns.flatMap (fun r =>
        (finditer r line).map (fun m => (m.1, m.2.1))))
      let columns := buildColumnsGo line ms 0
      if columns.length ≠ expectedCols then
        ((pysplitWs (pystrip line)).take expectedCols).map (fun p => some (String.mk p))
      else columns.map (fun p => some (String.mk p))

/-- _extract_row. -/
def extractRowL (line : List Char) (tableType : Option String) (expectedCols : Nat) :
    Option (List (Option String)) :=
  if (pystrip line).isEmpty then none
  else
    match tableType with
    | some tt =>
      if tt.isEmpty then some (intelligentSplitL line expectedCols)
      else
        match rowPatternLoop tt line rowPatterns with
        | some row => some row
        | none => some (intelligentSplitL line expectedCols)
    | none => some (intelligentSplitL line expectedCols)

/-- The boundary shapes of _is_section_boundary, in source order. -/
def boundaryPatterns : List Re :=
  [rcat [.bos, .cls cUpper, rplus (.cls (fun c => cUpper c || pyIsSpace c)),
    ropt (rchar ':'), reWSs, .eol],
   rcat [.bos, reNum, rchar '.', reWSp, .cls cUpper],
   rcat [.bos, rword 'N' 'n' "ote:"],
   rcat [.bos, rword 'C' 'c' "aution:"],
   rcat [.bos, rrepAtLeast 5 (.cls (fun c => c = '-' || c = '=')), .eol]]

/-- _is_section_boundary: match any boundary shape against the stripped line. -/
def isSectionBoundaryL (line : List Char) : Bool :=
  boundaryPatterns.any (fun r => (matchAt r (pystrip line) 0).isSome)

/-- The row-collection loop of _extract_table_from_section, over the lines
after the header: skip blank lines, stop at the first section boundary,
keep every non-empty extracted row. -/
def collectRowsL (lines : List (List Char)) (tableType : Option String) (ncols : Nat) :
    List (List (Option String)) :=
  match lines with
  | [] => []
  | l :: ls =>
    if (pystrip l).isEmpty then collectRowsL ls tableType ncols
    else if isSectionBoundaryL (pystrip l) then []
    else
      match extractRowL (pystrip l) tableType ncols with
      | some row =>
        if 0 < row.length then row :: collectRowsL ls tableType ncols
        else collectRowsL ls tableType ncols
      | none => collectRowsL ls tableType ncols

/-- The explicit header scan of _extract_table_from_section: each line that
any header pattern matches overwrites the header state, and the scan stops
as soon as the extracted headers are non-empty. -/
def headerScanGo : List (List Char) → Nat → (Option Nat × List String × Option String) →
    Option Nat × List String × Option String
  | [], _, st => st
  | l :: ls, idx, st =>
    let st2 := if headerPatterns.any (fun r => (reSearch r l).isSome) then
        (some idx, extractHeadersL l, some (determineTableTypeL l))
      else st
    if !st2.2.1.isEmpty then st2 else headerScanGo ls (idx+1) st2

/-- The resolved header state of _extract_table_from_section: the explicit
scan result, replaced wholesale by the heuristic result when the scanned
headers are empty. -/
def headerState (lines : List (List Char)) : Option Nat × List String × Option String :=
  let st := headerScanGo lines 0 (none, [], none)
  if st.2.1.isEmpty then
    match heuristicHeaderDetection lines with
    | some (hs, i, tt) => (some i, hs, some tt)
    | none => (none, [], none)
  else st

/-- The final Table construction of _extract_table_from_section: a table is
returned only when the collected rows are non-empty, with the table type
defaulting to generic when absent or empty. -/
def assembleTable (headers : List String) (rows : List (List (Option String)))
    (ctx : String) (tt : Option String) : Option Table :=
  if !rows.isEmpty then
    some ⟨headers, rows, ctx,
      match tt with
      | some s => if !s.isEmpty then s else "generic"
      | none => "generic"⟩
  else none

/-- _extract_table_from_section.  The none branch for a missing header index
with non-empty headers is unreachable: both detection paths set the index
together with the headers. -/
def extractTableFromSectionL (sect : List Char) : Option Table :=
  let lines := splitSep "\n".data sect
  let st2 := headerState lines
  if st2.2.1.isEmpty then none
  else
    match st2.1 with
    | none => none
    | some hidx =>
      assembleTable st2.2.1 (collectRowsL (lines.drop (hidx + 1)) st2.2.2 st2.2.1.length)
        (String.mk sect) st2.2.2

/-- detect_and_extract_tables. -/
def detectAndExtractTablesL (text : List Char) : List Table :=
  (splitIntoSectionsL text).filterMap (fun sec =>
    match extractTableFromSectionL sec with
    | some t => if 0 < t.rows.length then some t else none
    | none => none)

/-- String-level API of detect_and_extract_tables. -/
def detect_and_extract_tables (text : String) : List Table :=
  detectAndExtractTablesL text.data

/-! ### General lemmas about the embedded string primitives -/

/-- pystrip written with the library right-strip. -/
theorem pystrip_eq_rdropWhile (l : List Char) :
    pystrip l = List.rdropWhile pyIsSpace (l.dropWhile pyIsSpace) := rfl

/-- Stripping is idempotent. -/
theorem pystrip_idem (cs : List Char) : pystrip (pystrip cs) = pystrip cs := by
  rw [pystrip_eq_rdropWhile, pystrip_eq_rdropWhile]
  have hA : List.dropWhile pyIsSpace
      (List.rdropWhile pyIsSpace (cs.dropWhile pyIsSpace)) =
      List.rdropWhile pyIsSpace (cs.dropWhile pyIsSpace) := by
    rw [List.dropWhile_eq_self_iff]
    intro hl
    have hpre := List.rdropWhile_prefix pyIsSpace (cs.dropWhile pyIsSpace)
    have hlen : 0 < (cs.dropWhile pyIsSpace).length := lt_of_lt_of_le hl hpre.length_le
    have h0 := List.dropWhile_get_zero_not pyIsSpace cs hlen
    rw [hpre.get_eq hl]
    exact h0
  rw [hA, List.rdropWhile_idempotent]

/-! ### Claim C3: cell count versus header count -/

/-- C3 (counterexample): on the text with header line Name Value Description
followed by the single word hello, the pipeline emits a table whose only row
has one cell while there are three headers, so a returned row does not have
exactly as many cells as the table has headers and no padding happens. -/
theorem c3_counterexample :
    detect_and_extract_tables "Name Value Description\nhello" =
      [⟨["Name", "Value", "Description"], [[some "hello"]],
        "Name Value Description\nhello", "generic_table"⟩] ∧
    (detect_and_extract_tables "Name Value Description\nhello").any
      (fun t => t.rows.any (fun r => r.length ≠ t.headers.length)) = true := by
  constructor
  · decide
  · decide

/-- C3 (amended): the intelligent-split fallback of the row extractor
produces at most the expected number of cells: the final naive split
truncates to the header count but never pads, so a row can be shorter than
the header list. -/
theorem intelligent_split_length_le (line : List Char) (n : Nat) :
    (intelligentSplitL line n).length ≤ n := by
  unfold intelligentSplitL
  dsimp only
  split
  · simpa using le_of_eq (by assumption)
  · split
    · simpa using le_of_eq (by assumption)
    · split
      · simp [List.length_take]
      · simp only [List.length_map]
        omega

/-! ### Claim C4: every cell a string -/

/-- C4 (counterexample): the bit-field row pattern has an optional capture
group, and a generic-table row built from its raw groups contains None as a
cell, so not every cell of every returned row is a string. -/
theorem c4_counterexample :
    detect_and_extract_tables "Name Value Description\n[5] FIELD RW desc" =
      [⟨["Name", "Value", "Description"],
        [[some "5", none, some "FIELD", some "RW", some "desc"]],
        "Name Value Description\n[5] FIELD RW desc", "generic_table"⟩] ∧
    (detect_and_extract_tables "Name Value Description\n[5] FIELD RW desc").any
      (fun t => t.rows.any (fun r => r.any (fun c => c.isNone))) = true := by
  constructor
  · decide
  · decide

/-- C4 (amended): every cell produced by the intelligent-split fallback is a
string; only rows returned directly from a row-pattern match (the raw capture
groups) can contain None. -/
theorem intelligent_split_cells_some (line : List Char) (n : Nat)
    (c : Option String) (hc : c ∈ intelligentSplitL line n) : c.isSome := by
  unfold intelligentSplitL at hc
  dsimp only at hc
  split at hc
  · simp only [List.mem_map] at hc
    obtain ⟨x, _, hx⟩ := hc
    simp [← hx]
  · split at hc
    · simp only [List.mem_map] at hc
      obtain ⟨x, _, hx⟩ := hc
      simp [← hx]
    · split at hc
      · simp only [List.mem_map] at hc
        obtain ⟨x, _, hx⟩ := hc
        simp [← hx]
      · simp only [List.mem_map] at hc
        obtain ⟨x, _, hx⟩ := hc
        simp [← hx]

/-- Witness for the amended C4 theorem at a concrete input. -/
theorem intelligent_split_cells_some_witness : (some "a" : Option String).isSome :=
  intelligent_split_cells_some "a b".data 2 (some "a") (by decide)

/-! ### Claim C5: every returned table has at least one row -/

/-- The assembler only ever returns a table whose rows are the given
non-empty row list. -/
theorem assembleTable_rows (headers : List String) (rows : List (List (Option String)))
    (ctx : String) (tt : Option String) (t : Table)
    (h : assembleTable headers rows ctx tt = some t) : t.rows = rows ∧ rows ≠ [] := by
  unfold assembleTable at h
  split at h
  · rw [Option.some_inj] at h
    subst h
    rename_i hne
    simpa using hne
  · exact absurd h (by simp)

/-- A table produced from a section always carries a non-empty row list. -/
theorem extractTable_rows_ne (sect : List Char) (t : Table)
    (h : extractTableFromSectionL sect = some t) : t.rows ≠ [] := by
  unfold extractTableFromSectionL at h
  dsimp only at h
  split at h
  · exact absurd h (by simp)
  · revert h
    split
    · intro h
      exact absurd h (by simp)
    · intro h
      have := assembleTable_rows _ _ _ _ _ h
      rw [this.1]
      exact this.2

/-- C5: every Table returned by detect_and_extract_tables has at least one
row, and a section in which no header is found or no row survives
contributes no table (a section only ever yields a table with rows). -/
theorem detect_tables_rows_nonempty :
    (∀ (text : String) (t : Table), t ∈ detect_and_extract_tables text → t.rows ≠ []) ∧
    (∀ (sect : List Char) (t : Table),
      extractTableFromSectionL sect = some t → t.rows ≠ []) := by
  constructor
  · intro text t ht
    unfold detect_and_extract_tables detectAndExtractTablesL at ht
    rw [List.mem_filterMap] at ht
    obtain ⟨sect, _, hsec⟩ := ht
    revert hsec
    split
    · rename_i t2 h2
      split
      · intro h
        rw [Option.some_inj] at h
        subst h
        exact extractTable_rows_ne _ _ h2
      · intro h
        exact absurd h (by simp)
    · intro h
      exact absurd h (by simp)
  · exact extractTable_rows_ne

/-- Witness for C5 at a concrete text that yields one table. -/
theorem detect_tables_rows_nonempty_witness :
    (⟨["Name", "Value", "Description"], [[some "foo", some "bar", some "baz"]],
      "Name Value Description\nfoo bar baz", "generic_table"⟩ : Table).rows ≠ [] :=
  detect_tables_rows_nonempty.1 "Name Value Description\nfoo bar baz" _ (by decide)

/-! ### Claim C9: boundary termination of row collection -/

/-- C9: row collection stops permanently at the first line whose stripped
form is a section boundary, without including that line, and keeps exactly
the rows collected from the lines before it; blank lines are skipped without
stopping; and a run of five dashes is such a boundary. -/
theorem row_collection_boundary :
    (∀ (before : List (List Char)) (b : List Char) (after : List (List Char))
        (tt : Option String) (n : Nat),
      isSectionBoundaryL (pystrip b) = true →
      (∀ l ∈ before, isSectionBoundaryL (pystrip l) = false) →
      collectRowsL (before ++ b :: after) tt n = collectRowsL before tt n) ∧
    (∀ (l : List Char) (ls : List (List Char)) (tt : Option String) (n : Nat),
      (pystrip l).isEmpty = true → collectRowsL (l :: ls) tt n = collectRowsL ls tt n) ∧
    isSectionBoundaryL "-----".data = true := by
  refine ⟨?_, ?_, by decide⟩
  · intro before b after tt n hb hbef
    induction before with
    | nil =>
      simp only [List.nil_append, collectRowsL]
      have hbne : (pystrip b).isEmpty = false := by
        by_contra hc
        rw [Bool.not_eq_false, List.isEmpty_iff] at hc
        rw [hc] at hb
        exact absurd hb (by decide)
      rw [hbne]
      simp [hb]
    | cons l before2 ih =>
      have hl := hbef l (List.mem_cons_self l before2)
      have ih2 := ih (fun x hx => hbef x (List.mem_cons_of_mem l hx))
      simp only [List.cons_append, collectRowsL, hl, Bool.false_eq_true, if_false,
        List.append_eq] at ih2 ⊢
      split
      · exact ih2
      · split
        · split
          · rw [ih2]
          · exact ih2
        · exact ih2
  · intro l ls tt n h
    simp [collectRowsL, h]

/-- Witness for C9: collection over a concrete line list stops at the dashed
line and a blank line is skipped. -/
theorem row_collection_boundary_witness :
    collectRowsL ["1 VCC Power".data, "  ".data, "-----".data, "2 GND Ground".data]
        (some "pin_table") 3 =
      collectRowsL ["1 VCC Power".data, "  ".data] (some "pin_table") 3 ∧
    collectRowsL ["  ".data, "x y z".data] (some "pin_table") 3 =
      collectRowsL ["x y z".data] (some "pin_table") 3 :=
  ⟨row_collection_boundary.1 ["1 VCC Power".data, "  ".data] "-----".data
      ["2 GND Ground".data] (some "pin_table") 3 (by decide) (by decide),
    row_collection_boundary.2.1 "  ".data ["x y z".data] (some "pin_table") 3 (by decide)⟩

/-! ### Claim C10: the heuristic header fallback -/

/-- The similar-line count is bounded by the size of the scanned window. -/
theorem countSimilar_le (lines : List (List Char)) (idx n : Nat) :
    countSimilar lines idx n ≤ min (idx + 4) lines.length - (idx + 1) := by
  unfold countSimilar
  exact le_trans (List.length_filter_le _ _) (le_of_eq (List.length_range' _ _ _))

/-- Soundness of the heuristic scan loop: a returned header index satisfies
the token-count, similarity and not-last-line conditions. -/
theorem heuristicGo_sound (all : List (List Char)) :
    ∀ (rest : List (List Char)) (idx : Nat) (hs : List String) (i : Nat) (tt : String),
      rest = all.drop idx → heuristicGo all rest idx = some (hs, i, tt) →
      i + 1 < all.length ∧ 2 ≤ (pysplitWs (all.getD i [])).length ∧
      (pysplitWs (all.getD i [])).length ≤ 6 ∧
      2 ≤ countSimilar all i (pysplitWs (all.getD i [])).length := by
  intro rest
  induction rest with
  | nil => intro idx hs i tt _ h; exact absurd h (by simp [heuristicGo])
  | cons l ls ih =>
    intro idx hs i tt hdrop h
    have hls : ls = all.drop (idx + 1) := by
      have h1 : (all.drop idx).drop 1 = all.drop (idx + 1) := List.drop_drop 1 idx all
      rw [← hdrop] at h1
      simpa using h1
    have hl : all.getD idx [] = l := by
      have h1 : (all.drop idx).head? = all[idx]? := List.head?_drop all idx
      rw [← hdrop] at h1
      rw [List.getD_eq_getElem?_getD, ← h1]
      rfl
    rw [heuristicGo] at h
    split at h
    · exact ih (idx + 1) hs i tt hls h
    · rename_i hlast
      dsimp only at h
      split at h
      · rename_i hw
        split at h
        · rename_i hsim
          rw [Option.some_inj] at h
          injection h with hA h23
          injection h23 with hB hC
          subst hA
          subst hB
          subst hC
          have hw2 := Bool.and_eq_true _ _ ▸ hw
          refine ⟨by omega, ?_, ?_, ?_⟩
          · rw [hl]
            exact of_decide_eq_true hw2.1
          · rw [hl]
            exact of_decide_eq_true hw2.2
          · rw [hl]
            exact hsim
        · exact ih (idx + 1) hs i tt hls h
      · exact ih (idx + 1) hs i tt hls h

/-- C10: the heuristic fallback selects a line only when it has 2 to 6
whitespace tokens, at least 2 of the up-to-3 following lines have a token
count within one of it, and the line is not the last of the section; in
particular a section with fewer than three lines never yields a heuristic
header. -/
theorem heuristic_header_conditions :
    (∀ (lines : List (List Char)) (hs : List String) (i : Nat) (tt : String),
      heuristicHeaderDetection lines = some (hs, i, tt) →
      i + 1 < lines.length ∧ 2 ≤ (pysplitWs (lines.getD i [])).length ∧
      (pysplitWs (lines.getD i [])).length ≤ 6 ∧
      2 ≤ countSimilar lines i (pysplitWs (lines.getD i [])).length) ∧
    (∀ lines : List (List Char), lines.length < 3 →
      heuristicHeaderDetection lines = none) := by
  constructor
  · intro lines hs i tt h
    exact heuristicGo_sound lines lines 0 hs i tt (by simp) h
  · intro lines hlen
    rcases h : heuristicHeaderDetection lines with _ | ⟨⟨hs, i, tt⟩⟩
    · rfl
    · exfalso
      obtain ⟨h1, _, _, h4⟩ := heuristicGo_sound lines lines 0 hs i tt (by simp) h
      have h5 := countSimilar_le lines i (pysplitWs (lines.getD i [])).length
      have h7 := le_trans h5 (Nat.sub_le_sub_right
        (min_le_right (i + 4) lines.length) (i + 1))
      omega

/-- Witness for C10 at concrete sections. -/
theorem heuristic_header_conditions_witness :
    0 + 1 < ([" a b".data, "c d".data, "e f".data] : List (List Char)).length ∧
    heuristicHeaderDetection [['x']] = none :=
  ⟨(heuristic_header_conditions.1 [" a b".data, "c d".data, "e f".data]
      ["a", "b"] 0 "generic_table" (by decide)).1,
    heuristic_header_conditions.2 [['x']] (by decide)⟩

/-! ### Claim C2: type-specific row patterns are never reached -/

/-- The row-pattern loop returns nothing when the table type is not
generic_table and is a substring of none of the four pattern names. -/
theorem rowPatternLoop_dead (tt : String)
    (h1 : containsSub tt.data "pin_row".data = false)
    (h2 : containsSub tt.data "register_row".data = false)
    (h3 : containsSub tt.data "spec_row".data = false)
    (h4 : containsSub tt.data "bit_field_row".data = false)
    (hg : tt ≠ "generic_table") (line : List Char) :
    rowPatternLoop tt line rowPatterns = none := by
  simp [rowPatternLoop, rowPatterns, h1, h2, h3, h4, hg]

/-- The row extractor under a dead table type always falls through to the
intelligent split. -/
theorem extractRow_dead (tt : String)
    (h1 : containsSub tt.data "pin_row".data = false)
    (h2 : containsSub tt.data "register_row".data = false)
    (h3 : containsSub tt.data "spec_row".data = false)
    (h4 : containsSub tt.data "bit_field_row".data = false)
    (hg : tt ≠ "generic_table") (hne : tt.isEmpty = false) (line : List Char) (n : Nat) :
    extractRowL line (some tt) n =
      if (pystrip line).isEmpty then none else some (intelligentSplitL line n) := by
  unfold extractRowL
  dsimp only
  simp [hne, rowPatternLoop_dead tt h1 h2 h3 h4 hg line]

/-- C2: for every non-generic table type the substring condition of
_extract_row selects no row pattern, so the type-specific pattern is never
tried and the intelligent split always runs; on the register-table row
0x10 CTRL Control register the code returns the intelligent-split cells
with the literal 0x10, although the register_row pattern does match that
line with first capture 10. -/
theorem extract_row_never_type_specific :
    extractRowL "0x10 CTRL Control register".data (some "register_table") 3 =
      some [some "0x10", some "CTRL", some "Control register"] ∧
    ((matchAt registerRow.re "0x10 CTRL Control register".data 0).map
      (fun r => (groupsOf "0x10 CTRL Control register".data registerRow.ng r.2).map
        (fun o => o.map String.mk))) =
      some [some "10", some "CTRL", some "Control register"] ∧
    (∀ (line : List Char) (n : Nat), extractRowL line (some "pin_table") n =
      if (pystrip line).isEmpty then none else some (intelligentSplitL line n)) ∧
    (∀ (line : List Char) (n : Nat), extractRowL line (some "register_table") n =
      if (pystrip line).isEmpty then none else some (intelligentSplitL line n)) ∧
    (∀ (line : List Char) (n : Nat), extractRowL line (some "spec_table") n =
      if (pystrip line).isEmpty then none else some (intelligentSplitL line n)) ∧
    (∀ (line : List Char) (n : Nat), extractRowL line (some "bit_field_table") n =
      if (pystrip line).isEmpty then none else some (intelligentSplitL line n)) ∧
    (∀ (line : List Char) (n : Nat), extractRowL line (some "error_table") n =
      if (pystrip line).isEmpty then none else some (intelligentSplitL line n)) := by
  refine ⟨by decide, by decide, ?_, ?_, ?_, ?_, ?_⟩
  · exact fun line n => extractRow_dead "pin_table" (by decide) (by decide) (by decide)
      (by decide) (by decide) (by decide) line n
  · exact fun line n => extractRow_dead "register_table" (by decide) (by decide) (by decide)
      (by decide) (by decide) (by decide) line n
  · exact fun line n => extractRow_dead "spec_table" (by decide) (by decide) (by decide)
      (by decide) (by decide) (by decide) line n
  · exact fun line n => extractRow_dead "bit_field_table" (by decide) (by decide) (by decide)
      (by decide) (by decide) (by decide) line n
  · exact fun line n => extractRow_dead "error_table" (by decide) (by decide) (by decide)
      (by decide) (by decide) (by decide) line n

/-! ### Claim C1: register disambiguation -/

/-- C1 (counterexample): the text CONTROL_REG = 0x1234 matches none of the
register recognizers (the name-and-address recognizer requires the literal
word register), so no entity at all is extracted from it. -/
theorem c1_counterexample :
    extract_register_info "CONTROL_REG = 0x1234" = [] ∧
    extract_all_entities "CONTROL_REG = 0x1234" = [] := by
  constructor
  · decide
  · decide

/-- C1 (amended): a two-capture register match is disambiguated by whether
the first capture is alphabetic after stripping underscores — if so the
entity name is the first capture and the value the hex address, otherwise
the name is the synthesized Register 0x label and the value the second
capture; the text CONTROL_REG register = 0x1234 yields the named entity and
0x10 = 0x20 yields the synthesized one. -/
theorem register_disambiguation :
    (∀ (g0 g1 : List Char) (ctx : String),
      pyIsAlphaStr (stripUnderscores g0) = true →
      registerEntityTwo g0 g1 ctx =
        ⟨.register, String.mk g0, some ("0x" ++ String.mk (pyUpperL g1)), none, ctx,
          [("address", some ("0x" ++ String.mk (pyUpperL g1)))]⟩) ∧
    (∀ (g0 g1 : List Char) (ctx : String),
      pyIsAlphaStr (stripUnderscores g0) = false →
      registerEntityTwo g0 g1 ctx =
        ⟨.register, "Register 0x" ++ String.mk (pyUpperL g0),
          some ("0x" ++ String.mk (pyUpperL g1)), none, ctx,
          [("address", some ("0x" ++ String.mk (pyUpperL g0))),
           ("value", some ("0x" ++ String.mk (pyUpperL g1)))]⟩) ∧
    extract_register_info "CONTROL_REG register = 0x1234" =
      [⟨.register, "CONTROL_REG", some "0x1234", none,
        "CONTROL_REG register = 0x1234", [("address", some "0x1234")]⟩] ∧
    extract_register_info "0x10 = 0x20" =
      [⟨.register, "Register 0x10", some "0x20", none, "0x10 = 0x20",
        [("address", some "0x10"), ("value", some "0x20")]⟩] := by
  refine ⟨?_, ?_, by decide, by decide⟩
  · intro g0 g1 ctx h
    simp [registerEntityTwo, h]
  · intro g0 g1 ctx h
    simp [registerEntityTwo, h]

/-- Witness for the amended C1 theorem: both disambiguation branches at
concrete captures. -/
theorem register_disambiguation_witness :
    registerEntityTwo "AB".data "12".data "c" =
      ⟨.register, "AB", some "0x12", none, "c", [("address", some "0x12")]⟩ ∧
    registerEntityTwo "10".data "20".data "c" =
      ⟨.register, "Register 0x10", some "0x20", none, "c",
        [("address", some "0x10"), ("value", some "0x20")]⟩ :=
  ⟨register_disambiguation.1 "AB".data "12".data "c" (by decide),
    register_disambiguation.2.1 "10".data "20".data "c" (by decide)⟩

/-! ### Claim C8: section segmentation -/

/-- C8 (counterexample): with a Figure marker before a Table marker the
pattern-by-pattern cursor walk appends the prefix up to the Table marker and
then, the cursor having moved backwards to the Figure match, the whole text
again — overlapping slices rather than marker-to-next-marker slices. -/
theorem c8_counterexample :
    (splitIntoSectionsL "Figure 1: A\nTable 1: B".data).map String.mk =
      ["Figure 1: A", "Figure 1: A\nTable 1: B"] ∧
    (splitIntoSectionsL "Figure 1: A\nTable 1: B".data).map String.mk ≠
      ["Figure 1: A", "Table 1: B"] := by
  constructor
  · decide
  · decide

/-- C8 (amended): sections are produced by a per-pattern cursor walk whose
slices are stripped with empty ones dropped (every returned section is
non-empty and strip-idempotent); the blank-line paragraph fallback is used
exactly when the marker pass produced at most one raw slice; and when all
marker matches appear in increasing position order — for instance with a
single marker kind — the walk does yield the marker-to-next-marker slices. -/
theorem split_sections_amended :
    (∀ (text s : List Char), s ∈ splitIntoSectionsL text → pystrip s = s ∧ s ≠ []) ∧
    (∀ text : List Char, (markerSections text).length ≤ 1 →
      splitIntoSectionsL text =
        ((splitSep "\n\n".data text).map pystrip).filter (fun s => !s.isEmpty)) ∧
    (splitIntoSectionsL "Table 1: A\nTable 2: B".data).map String.mk =
      ["Table 1: A", "Table 2: B"] := by
  refine ⟨?_, ?_, by decide⟩
  · intro text s hs
    unfold splitIntoSectionsL at hs
    dsimp only at hs
    rw [List.mem_filter, List.mem_map] at hs
    obtain ⟨⟨x, _, hx⟩, hne⟩ := hs
    constructor
    · rw [← hx, pystrip_idem]
    · simpa using hne
  · intro text h
    unfold splitIntoSectionsL
    dsimp only
    rw [if_pos h]

/-- Witness for the amended C8 theorem at concrete texts. -/
theorem split_sections_amended_witness :
    (pystrip "Table 1: A".data = "Table 1: A".data ∧ "Table 1: A".data ≠ []) ∧
    splitIntoSectionsL "a\n\nb".data =
      ((splitSep "\n\n".data "a\n\nb".data).map pystrip).filter (fun s => !s.isEmpty) :=
  ⟨split_sections_amended.1 "Table 1: A\nTable 2: B".data "Table 1: A".data (by decide),
    split_sections_amended.2.1 "a\n\nb".data (by decide)⟩

/-! ### Claim C7: stable per-key deduplication, no cross-category removal -/

/-- The stable keep-first-of-each-key function, written from the claim's
wording (first occurrence kept, relative order preserved), to be compared
with the seen-set loop of _deduplicate_entities. -/
def keepFirstByKey : List TechnicalEntity → List TechnicalEntity
  | [] => []
  | e :: es => e :: keepFirstByKey (es.filter (fun x => dedupKey x ≠ dedupKey e))
termination_by l => l.length
decreasing_by
  simp only [List.length_cons]
  exact Nat.lt_succ_of_le (List.length_filter_le _ _)

/-- Anything surviving the seen-set loop was in the input. -/
theorem mem_dedupGo (l : List TechnicalEntity) :
    ∀ (seen : List (EntityType × String × Option String)) (e : TechnicalEntity),
      e ∈ dedupGo seen l → e ∈ l := by
  induction l with
  | nil => intro seen e h; simpa [dedupGo] using h
  | cons x xs ih =>
    intro seen e h
    rw [dedupGo] at h
    split at h
    · exact List.mem_cons_of_mem _ (ih _ _ h)
    · rcases List.mem_cons.mp h with h2 | h2
      · exact h2 ▸ List.mem_cons_self _ _
      · exact List.mem_cons_of_mem _ (ih _ _ h2)

/-- The seen-set loop equals the keep-first function on the input with the
already-seen keys filtered away. -/
theorem dedupGo_eq (l : List TechnicalEntity) :
    ∀ seen : List (EntityType × String × Option String),
      dedupGo seen l = keepFirstByKey (l.filter (fun x => dedupKey x ∉ seen)) := by
  induction l with
  | nil => intro seen; simp [dedupGo, keepFirstByKey]
  | cons e es ih =>
    intro seen
    rw [dedupGo]
    split
    · rename_i hmem
      rw [ih seen, List.filter_cons]
      simp [hmem]
    · rename_i hmem
      rw [List.filter_cons]
      have hd : (decide (dedupKey e ∉ seen)) = true := by simpa using hmem
      simp only [hd, if_pos]
      rw [keepFirstByKey, List.filter_filter]
      rw [ih (dedupKey e :: seen)]
      congr 1
      congr 1
      apply List.filter_congr
      intro x _
      by_cases h1 : dedupKey x ∈ seen <;> by_cases h2 : dedupKey x = dedupKey e <;>
        simp [h1, h2]

/-- _deduplicate_entities equals the stable keep-first-of-each-key function. -/
theorem deduplicate_entities_eq_keepFirst (l : List TechnicalEntity) :
    deduplicate_entities l = keepFirstByKey l := by
  unfold deduplicate_entities
  rw [dedupGo_eq l []]
  congr 1
  simp

/-- The seen-set loop produces pairwise distinct keys, all outside the seen
set. -/
theorem dedupGo_pairwise (l : List TechnicalEntity) :
    ∀ seen : List (EntityType × String × Option String),
      (dedupGo seen l).Pairwise (fun a b => dedupKey a ≠ dedupKey b) ∧
      ∀ e ∈ dedupGo seen l, dedupKey e ∉ seen := by
  induction l with
  | nil => intro seen; simp [dedupGo]
  | cons x xs ih =>
    intro seen
    rw [dedupGo]
    split
    · exact ih seen
    · rename_i hx
      obtain ⟨hp, hnot⟩ := ih (dedupKey x :: seen)
      refine ⟨List.Pairwise.cons ?_ hp, ?_⟩
      · intro b hb
        have := hnot b hb
        simp only [List.mem_cons] at this
        exact fun he => this (Or.inl he.symm)
      · intro e he
        rcases List.mem_cons.mp he with h2 | h2
        · exact h2 ▸ hx
        · have := hnot e h2
          simp only [List.mem_cons] at this
          exact fun hc => this (Or.inr hc)

/-- _deduplicate_entities produces pairwise distinct (category, name, value)
keys. -/
theorem deduplicate_entities_pairwise (l : List TechnicalEntity) :
    (deduplicate_entities l).Pairwise (fun a b => dedupKey a ≠ dedupKey b) :=
  (dedupGo_pairwise l []).1

/-- Every entity from the pin extractor has category pin. -/
theorem extractPin_type (text : List Char) (e : TechnicalEntity)
    (h : e ∈ extractPinInfoL text) : e.entity_type = .pin := by
  unfold extractPinInfoL at h
  have h2 := mem_dedupGo _ _ _ h
  simp only [List.mem_flatMap] at h2
  obtain ⟨p, _, m, _, h4⟩ := h2
  unfold pinEntityOfMatch at h4
  repeat' split at h4
  all_goals simp_all

/-- Every entity from the register extractor has category register. -/
theorem extractRegister_type (text : List Char) (e : TechnicalEntity)
    (h : e ∈ extractRegisterInfoL text) : e.entity_type = .register := by
  unfold extractRegisterInfoL at h
  have h2 := mem_dedupGo _ _ _ h
  simp only [List.mem_flatMap] at h2
  obtain ⟨p, _, m, _, h4⟩ := h2
  unfold registerEntityOfMatch registerEntityTwo at h4
  repeat' split at h4
  all_goals simp_all

/-- Every entity from the voltage extractor has category voltage. -/
theorem extractVoltage_type (text : List Char) (e : TechnicalEntity)
    (h : e ∈ extractVoltageSpecsL text) : e.entity_type = .voltage := by
  unfold extractVoltageSpecsL at h
  have h2 := mem_dedupGo _ _ _ h
  simp only [List.mem_flatMap] at h2
  obtain ⟨p, _, m, _, h4⟩ := h2
  unfold voltageEntityOfMatch at h4
  repeat' split at h4
  all_goals simp_all

/-- Every entity from the timing extractor has category timing. -/
theorem extractTiming_type (text : List Char) (e : TechnicalEntity)
    (h : e ∈ extractTimingSpecsL text) : e.entity_type = .timing := by
  unfold extractTimingSpecsL at h
  have h2 := mem_dedupGo _ _ _ h
  simp only [List.mem_flatMap] at h2
  obtain ⟨p, _, m, _, h4⟩ := h2
  unfold timingEntityOfMatch at h4
  repeat' split at h4
  all_goals simp_all

/-- Every entity from the frequency extractor has category frequency. -/
theorem extractFrequency_type (text : List Char) (e : TechnicalEntity)
    (h : e ∈ extractFrequencySpecsL text) : e.entity_type = .frequency := by
  unfold extractFrequencySpecsL at h
  have h2 := mem_dedupGo _ _ _ h
  simp only [List.mem_flatMap] at h2
  obtain ⟨p, _, m, _, h4⟩ := h2
  unfold frequencyEntityOfMatch at h4
  repeat' split at h4
  all_goals simp_all

/-- Every entity from the current extractor has category current. -/
theorem extractCurrent_type (text : List Char) (e : TechnicalEntity)
    (h : e ∈ extractCurrentSpecsL text) : e.entity_type = .current := by
  unfold extractCurrentSpecsL at h
  have h2 := mem_dedupGo _ _ _ h
  simp only [List.mem_flatMap] at h2
  obtain ⟨p, _, m, _, h4⟩ := h2
  unfold currentEntityOfMatch at h4
  repeat' split at h4
  all_goals simp_all

/-- Every entity from the bitfield extractor has category bitfield. -/
theorem extractBitfield_type (text : List Char) (e : TechnicalEntity)
    (h : e ∈ extractBitfieldInfoL text) : e.entity_type = .bitfield := by
  unfold extractBitfieldInfoL at h
  have h2 := mem_dedupGo _ _ _ h
  simp only [List.mem_flatMap] at h2
  obtain ⟨p, _, m, _, h4⟩ := h2
  unfold bitfieldEntityOfMatch at h4
  repeat' split at h4
  all_goals simp_all

/-- Every entity from the error-code extractor has category error_code. -/
theorem extractError_type (text : List Char) (e : TechnicalEntity)
    (h : e ∈ extractErrorCodesL text) : e.entity_type = .error_code := by
  unfold extractErrorCodesL at h
  have h2 := mem_dedupGo _ _ _ h
  simp only [List.mem_flatMap] at h2
  obtain ⟨p, _, m, _, h4⟩ := h2
  unfold errorEntityOfMatch at h4
  repeat' split at h4
  all_goals simp_all

/-- Every entity from the procedure extractor has category procedure_step. -/
theorem extractProcedure_type (text : List Char) (e : TechnicalEntity)
    (h : e ∈ extractProceduresL text) : e.entity_type = .procedure_step := by
  unfold extractProceduresL at h
  have h2 := mem_dedupGo _ _ _ h
  simp only [List.mem_flatMap] at h2
  obtain ⟨p, _, m, _, h4⟩ := h2
  unfold procedureEntityOfMatch at h4
  repeat' split at h4
  all_goals simp_all

/-- Entities of different categories never share a deduplication key. -/
theorem key_ne_of_type_ne {a b : TechnicalEntity}
    (h : a.entity_type ≠ b.entity_type) : dedupKey a ≠ dedupKey b :=
  fun he => h (congrArg Prod.fst he)

/-- Appending key-distinct blocks of distinct categories stays key-distinct. -/
theorem pairwise_key_append {A B : List TechnicalEntity}
    (hA : A.Pairwise (fun a b => dedupKey a ≠ dedupKey b))
    (hB : B.Pairwise (fun a b => dedupKey a ≠ dedupKey b))
    (hT : ∀ a ∈ A, ∀ b ∈ B, a.entity_type ≠ b.entity_type) :
    (A ++ B).Pairwise (fun a b => dedupKey a ≠ dedupKey b) :=
  List.pairwise_append.mpr ⟨hA, hB, fun a ha b hb => key_ne_of_type_ne (hT a ha b hb)⟩

/-- The category-indexed extractor map: each category is produced by exactly
one extractor of extract_all_entities, and the configuration category by
none. -/
def categoryExtractorL : EntityType → List Char → List TechnicalEntity
  | .pin => extractPinInfoL
  | .register => extractRegisterInfoL
  | .voltage => extractVoltageSpecsL
  | .timing => extractTimingSpecsL
  | .frequency => extractFrequencySpecsL
  | .current => extractCurrentSpecsL
  | .bitfield => extractBitfieldInfoL
  | .procedure_step => extractProceduresL
  | .error_code => extractErrorCodesL
  | .configuration => fun _ => []

/-- C7: in the list returned by extract_all_entities no two entities share a
(category, name, value) key; the deduplication loop is exactly the stable
keep-first-per-key function (first occurrence kept, relative order
preserved); and an entity is in the combined list exactly when it is in its
own category's extractor output, so entities of different categories are
never deduplicated against each other. -/
theorem dedup_stable_per_category :
    (∀ text : String,
      (extract_all_entities text).Pairwise (fun a b => dedupKey a ≠ dedupKey b)) ∧
    (∀ l : List TechnicalEntity, deduplicate_entities l = keepFirstByKey l) ∧
    (∀ (text : String) (e : TechnicalEntity),
      e ∈ extract_all_entities text ↔ e ∈ categoryExtractorL e.entity_type text.data) := by
  refine ⟨?_, deduplicate_entities_eq_keepFirst, ?_⟩
  · intro text
    unfold extract_all_entities extractAllEntitiesL
    generalize text.data = t
    have d1 : (extractPinInfoL t).Pairwise (fun a b => dedupKey a ≠ dedupKey b) :=
      deduplicate_entities_pairwise _
    have d2 : (extractRegisterInfoL t).Pairwise (fun a b => dedupKey a ≠ dedupKey b) :=
      deduplicate_entities_pairwise _
    have d3 : (extractVoltageSpecsL t).Pairwise (fun a b => dedupKey a ≠ dedupKey b) :=
      deduplicate_entities_pairwise _
    have d4 : (extractTimingSpecsL t).Pairwise (fun a b => dedupKey a ≠ dedupKey b) :=
      deduplicate_entities_pairwise _
    have d5 : (extractFrequencySpecsL t).Pairwise (fun a b => dedupKey a ≠ dedupKey b) :=
      deduplicate_entities_pairwise _
    have d6 : (extractCurrentSpecsL t).Pairwise (fun a b => dedupKey a ≠ dedupKey b) :=
      deduplicate_entities_pairwise _
    have d7 : (extractBitfieldInfoL t).Pairwise (fun a b => dedupKey a ≠ dedupKey b) :=
      deduplicate_entities_pairwise _
    have d8 : (extractErrorCodesL t).Pairwise (fun a b => dedupKey a ≠ dedupKey b) :=
      deduplicate_entities_pairwise _
    have d9 : (extractProceduresL t).Pairwise (fun a b => dedupKey a ≠ dedupKey b) :=
      deduplicate_entities_pairwise _
    have mp1 : ∀ a ∈ extractPinInfoL t, a.entity_type ∈ [EntityType.pin] := by
      intro a ha; simp [extractPin_type t a ha]
    have mp2 : ∀ a ∈ extractPinInfoL t ++ extractRegisterInfoL t, a.entity_type ∈ [EntityType.pin, EntityType.register] := by
      intro a ha
      rcases List.mem_append.mp ha with h | h
      · have := mp1 a h; simp at this
        simp [this]
      · simp [extractRegister_type t a h]
    have mp3 : ∀ a ∈ extractPinInfoL t ++ extractRegisterInfoL t ++ extractVoltageSpecsL t, a.entity_type ∈ [EntityType.pin, EntityType.register, EntityType.voltage] := by
      intro a ha
      rcases List.mem_append.mp ha with h | h
      · have := mp2 a h; simp at this
        rcases this with h2 | h2 <;> simp [h2]
      · simp [extractVoltage_type t a h]
    have mp4 : ∀ a ∈ extractPinInfoL t ++ extractRegisterInfoL t ++ extractVoltageSpecsL t ++ extractTimingSpecsL t, a.entity_type ∈ [EntityType.pin, EntityType.register, EntityType.voltage, EntityType.timing] := by
      intro a ha
      rcases List.mem_append.mp ha with h | h
      · have := mp3 a h; simp at this
        rcases this with h2 | h2 | h2 <;> simp [h2]
      · simp [extractTiming_type t a h]
    have mp5 : ∀ a ∈ extractPinInfoL t ++ extractRegisterInfoL t ++ extractVoltageSpecsL t ++ extractTimingSpecsL t ++ extractFrequencySpecsL t, a.entity_type ∈ [EntityType.pin, EntityType.register, EntityType.voltage, EntityType.timing, EntityType.frequency] := by
      intro a ha
      rcases List.mem_append.mp ha with h | h
      · have := mp4 a h; simp at this
        rcases this with h2 | h2 | h2 | h2 <;> simp [h2]
      · simp [extractFrequency_type t a h]
    have mp6 : ∀ a ∈ extractPinInfoL t ++ extractRegisterInfoL t ++ extractVoltageSpecsL t ++ extractTimingSpecsL t ++ extractFrequencySpecsL t ++ extractCurrentSpecsL t, a.entity_type ∈ [EntityType.pin, EntityType.register, EntityType.voltage, EntityType.timing, EntityType.frequency, EntityType.current] := by
      intro a ha
      rcases List.mem_append.mp ha with h | h
      · have := mp5 a h; simp at this
        rcases this with h2 | h2 | h2 | h2 | h2 <;> simp [h2]
      · simp [extractCurrent_type t a h]
    have mp7 : ∀ a ∈ extractPinInfoL t ++ extractRegisterInfoL t ++ extractVoltageSpecsL t ++ extractTimingSpecsL t ++ extractFrequencySpecsL t ++ extractCurrentSpecsL t ++ extractBitfieldInfoL t, a.entity_type ∈ [EntityType.pin, EntityType.register, EntityType.voltage, EntityType.timing, EntityType.frequency, EntityType.current, EntityType.bitfield] := by
      intro a ha
      rcases List.mem_append.mp ha with h | h
      · have := mp6 a h; simp at this
        rcases this with h2 | h2 | h2 | h2 | h2 | h2 <;> simp [h2]
      · simp [extractBitfield_type t a h]
    have mp8 : ∀ a ∈ extractPinInfoL t ++ extractRegisterInfoL t ++ extractVoltageSpecsL t ++ extractTimingSpecsL t ++ extractFrequencySpecsL t ++ extractCurrentSpecsL t ++ extractBitfieldInfoL t ++ extractErrorCodesL t, a.entity_type ∈ [EntityType.pin, EntityType.register, EntityType.voltage, EntityType.timing, EntityType.frequency, EntityType.current, EntityType.bitfield, EntityType.error_code] := by
      intro a ha
      rcases List.mem_append.mp ha with h | h
      · have := mp7 a h; simp at this
        rcases this with h2 | h2 | h2 | h2 | h2 | h2 | h2 <;> simp [h2]
      · simp [extractError_type t a h]
    have c1 : ∀ a ∈ extractPinInfoL t, ∀ b ∈ extractRegisterInfoL t,
        a.entity_type ≠ b.entity_type := by
      intro a ha b hb
      rw [extractRegister_type t b hb]
      have := mp1 a ha; simp at this
      simp [this]
    have c2 : ∀ a ∈ extractPinInfoL t ++ extractRegisterInfoL t, ∀ b ∈ extractVoltageSpecsL t,
        a.entity_type ≠ b.entity_type := by
      intro a ha b hb
      rw [extractVoltage_type t b hb]
      have := mp2 a ha; simp at this
      rcases this with h2 | h2 <;> simp [h2]
    have c3 : ∀ a ∈ extractPinInfoL t ++ extractRegisterInfoL t ++ extractVoltageSpecsL t, ∀ b ∈ extractTimingSpecsL t,
        a.entity_type ≠ b.entity_type := by
      intro a ha b hb
      rw [extractTiming_type t b hb]
      have := mp3 a ha; simp at this
      rcases this with h2 | h2 | h2 <;> simp [h2]
    have c4 : ∀ a ∈ extractPinInfoL t ++ extractRegisterInfoL t ++ extractVoltageSpecsL t ++ extractTimingSpecsL t, ∀ b ∈ extractFrequencySpecsL t,
        a.entity_type ≠ b.entity_type := by
      intro a ha b hb
      rw [extractFrequency_type t b hb]
      have := mp4 a ha; simp at this
      rcases this with h2 | h2 | h2 | h2 <;> simp [h2]
    have c5 : ∀ a ∈ extractPinInfoL t ++ extractRegisterInfoL t ++ extractVoltageSpecsL t ++ extractTimingSpecsL t ++ extractFrequencySpecsL t, ∀ b ∈ extractCurrentSpecsL t,
        a.entity_type ≠ b.entity_type := by
      intro a ha b hb
      rw [extractCurrent_type t b hb]
      have := mp5 a ha; simp at this
      rcases this with h2 | h2 | h2 | h2 | h2 <;> simp [h2]
    have c6 : ∀ a ∈ extractPinInfoL t ++ extractRegisterInfoL t ++ extractVoltageSpecsL t ++ extractTimingSpecsL t ++ extractFrequencySpecsL t ++ extractCurrentSpecsL t, ∀ b ∈ extractBitfieldInfoL t,
        a.entity_type ≠ b.entity_type := by
      intro a ha b hb
      rw [extractBitfield_type t b hb]
      have := mp6 a ha; simp at this
      rcases this with h2 | h2 | h2 | h2 | h2 | h2 <;> simp [h2]
    have c7 : ∀ a ∈ extractPinInfoL t ++ extractRegisterInfoL t ++ extractVoltageSpecsL t ++ extractTimingSpecsL t ++ extractFrequencySpecsL t ++ extractCurrentSpecsL t ++ extractBitfieldInfoL t, ∀ b ∈ extractErrorCodesL t,
        a.entity_type ≠ b.entity_type := by
      intro a ha b hb
      rw [extractError_type t b hb]
      have := mp7 a ha; simp at this
      rcases this with h2 | h2 | h2 | h2 | h2 | h2 | h2 <;> simp [h2]
    have c8 : ∀ a ∈ extractPinInfoL t ++ extractRegisterInfoL t ++ extractVoltageSpecsL t ++ extractTimingSpecsL t ++ extractFrequencySpecsL t ++ extractCurrentSpecsL t ++ extractBitfieldInfoL t ++ extractErrorCodesL t, ∀ b ∈ extractProceduresL t,
        a.entity_type ≠ b.entity_type := by
      intro a ha b hb
      rw [extractProcedure_type t b hb]
      have := mp8 a ha; simp at this
      rcases this with h2 | h2 | h2 | h2 | h2 | h2 | h2 | h2 <;> simp [h2]
    have P2 := pairwise_key_append d1 d2 c1
    have P3 := pairwise_key_append P2 d3 c2
    have P4 := pairwise_key_append P3 d4 c3
    have P5 := pairwise_key_append P4 d5 c4
    have P6 := pairwise_key_append P5 d6 c5
    have P7 := pairwise_key_append P6 d7 c6
    have P8 := pairwise_key_append P7 d8 c7
    have P9 := pairwise_key_append P8 d9 c8
    exact P9
  · intro text e
    constructor
    · intro h
      simp only [extract_all_entities, extractAllEntitiesL, List.mem_append] at h
      rcases h with ((((((((h | h) | h) | h) | h) | h) | h) | h) | h)
      · rw [extractPin_type text.data e h]; exact h
      · rw [extractRegister_type text.data e h]; exact h
      · rw [extractVoltage_type text.data e h]; exact h
      · rw [extractTiming_type text.data e h]; exact h
      · rw [extractFrequency_type text.data e h]; exact h
      · rw [extractCurrent_type text.data e h]; exact h
      · rw [extractBitfield_type text.data e h]; exact h
      · rw [extractError_type text.data e h]; exact h
      · rw [extractProcedure_type text.data e h]; exact h
    · intro h
      have hty : ∀ c : EntityType, e.entity_type = c → e ∈ categoryExtractorL c text.data →
          e ∈ extract_all_entities text := by
        intro c hc h2
        simp only [extract_all_entities, extractAllEntitiesL, List.mem_append]
        cases c
        · exact Or.inl (Or.inl (Or.inl (Or.inl (Or.inl (Or.inl (Or.inl (Or.inl h2)))))))
        · exact Or.inl (Or.inl (Or.inl (Or.inl (Or.inl (Or.inl (Or.inl (Or.inr h2)))))))
        · exact Or.inl (Or.inl (Or.inl (Or.inl (Or.inl (Or.inl (Or.inr h2))))))
        · exact Or.inl (Or.inl (Or.inl (Or.inl (Or.inl (Or.inr h2)))))
        · exact Or.inl (Or.inl (Or.inl (Or.inl (Or.inr h2))))
        · exact Or.inl (Or.inl (Or.inl (Or.inr h2)))
        · exact Or.inl (Or.inl (Or.inr h2))
        · exact Or.inr h2
        · exact Or.inl (Or.inr h2)
        · exact absurd h2 (List.not_mem_nil e)
      exact hty e.entity_type rfl h

/-! ### Claim C6: totality of both passes.  The exception-instrumented
variants below throw exactly where the Python code would raise (a tuple
unpack of the wrong arity, or a string method called on None); proving them
equal to ok of the plain functions shows no input can abort a pass.  The key
fact is that a capture group in a mandatory position of a pattern is always
recorded by a successful match. -/

/-- The capture groups of a pattern that participate in every match: all
groups except those under a repetition, an option or only one arm of an
alternation. -/
def mandG : Re → List Nat
  | .eps => []
  | .cls _ => []
  | .seq a b => mandG a ++ mandG b
  | .alt a b => (mandG a).filter (fun g => g ∈ mandG b)
  | .star _ => []
  | .starL _ => []
  | .grp i r => i :: mandG r
  | .look r => mandG r
  | .wb => []
  | .bos => []
  | .eol => []
  | .eos => []

/-- Greedy iteration preserves the continuation-success and caps-extension
property of its body matcher. -/
theorem mstar_k (m : Matcher)
    (hm : ∀ prev rest i caps k res, m prev rest i caps k = some res →
      ∃ p2 r2 i2 caps2, k p2 r2 i2 caps2 = some res ∧ ∀ x ∈ caps, x ∈ caps2) :
    ∀ (fuel : Nat) (prev : Option Char) (rest : List Char) (i : Nat) (caps : Caps)
      (k : MCont) (res : Nat × Caps),
      mstar m fuel prev rest i caps k = some res →
      ∃ p2 r2 i2 caps2, k p2 r2 i2 caps2 = some res ∧ ∀ x ∈ caps, x ∈ caps2 := by
  intro fuel
  induction fuel with
  | zero =>
    intro prev rest i caps k res h
    exact ⟨prev, rest, i, caps, h, fun x hx => hx⟩
  | succ n ih =>
    intro prev rest i caps k res h
    rw [mstar] at h
    dsimp only at h
    split at h
    · rename_i res2 hsc
      rw [Option.some_inj] at h
      subst h
      obtain ⟨p2, r2, i2, c2, hk, hsub⟩ := hm _ _ _ _ _ _ hsc
      by_cases hi : i < i2
      · rw [if_pos hi] at hk
        obtain ⟨p3, r3, i3, c3, hk3, hsub3⟩ := ih _ _ _ _ _ _ hk
        exact ⟨p3, r3, i3, c3, hk3, fun x hx => hsub3 x (hsub x hx)⟩
      · rw [if_neg hi] at hk
        exact absurd hk (by simp)
    · exact ⟨prev, rest, i, caps, h, fun x hx => hx⟩

/-- Lazy iteration preserves the continuation-success and caps-extension
property of its body matcher. -/
theorem mstarL_k (m : Matcher)
    (hm : ∀ prev rest i caps k res, m prev rest i caps k = some res →
      ∃ p2 r2 i2 caps2, k p2 r2 i2 caps2 = some res ∧ ∀ x ∈ caps, x ∈ caps2) :
    ∀ (fuel : Nat) (prev : Option Char) (rest : List Char) (i : Nat) (caps : Caps)
      (k : MCont) (res : Nat × Caps),
      mstarL m fuel prev rest i caps k = some res →
      ∃ p2 r2 i2 caps2, k p2 r2 i2 caps2 = some res ∧ ∀ x ∈ caps, x ∈ caps2 := by
  intro fuel
  induction fuel with
  | zero =>
    intro prev rest i caps k res h
    exact ⟨prev, rest, i, caps, h, fun x hx => hx⟩
  | succ n ih =>
    intro prev rest i caps k res h
    rw [mstarL] at h
    dsimp only at h
    split at h
    · rename_i res2 hsc
      rw [Option.some_inj] at h
      subst h
      exact ⟨prev, rest, i, caps, hsc, fun x hx => hx⟩
    · obtain ⟨p2, r2, i2, c2, hk, hsub⟩ := hm _ _ _ _ _ _ h
      by_cases hi : i < i2
      · rw [if_pos hi] at hk
        obtain ⟨p3, r3, i3, c3, hk3, hsub3⟩ := ih _ _ _ _ _ _ hk
        exact ⟨p3, r3, i3, c3, hk3, fun x hx => hsub3 x (hsub x hx)⟩
      · rw [if_neg hi] at hk
        exact absurd hk (by simp)

/-- A successful match calls its continuation with captures that extend the
incoming ones and record every mandatory group of the pattern. -/
theorem mgo_mand (re : Re) :
    ∀ (fuel : Nat) (prev : Option Char) (rest : List Char) (i : Nat) (caps : Caps)
      (k : MCont) (res : Nat × Caps),
      mgo fuel re prev rest i caps k = some res →
      ∃ p2 r2 i2 caps2, k p2 r2 i2 caps2 = some res ∧
        (∀ g ∈ mandG re, ∃ a b, (g, a, b) ∈ caps2) ∧
        (∀ x ∈ caps, x ∈ caps2) := by
  induction re with
  | eps =>
    intro fuel prev rest i caps k res h
    exact ⟨prev, rest, i, caps, h, by simp [mandG], fun x hx => hx⟩
  | cls p =>
    intro fuel prev rest i caps k res h
    simp only [mgo] at h
    rcases rest with _ | ⟨c, rs⟩
    · dsimp only at h
      exact absurd h (by simp)
    · dsimp only at h
      split at h
      · exact ⟨some c, rs, i + 1, caps, h, by simp [mandG], fun x hx => hx⟩
      · exact absurd h (by simp)
  | seq a b iha ihb =>
    intro fuel prev rest i caps k res h
    simp only [mgo] at h
    obtain ⟨p2, r2, i2, c2, hk1, hmA, hsA⟩ := iha _ _ _ _ _ _ _ h
    obtain ⟨p3, r3, i3, c3, hk, hmB, hsB⟩ := ihb _ _ _ _ _ _ _ hk1
    refine ⟨p3, r3, i3, c3, hk, ?_, fun x hx => hsB x (hsA x hx)⟩
    intro g hg
    rw [mandG, List.mem_append] at hg
    rcases hg with hg | hg
    · obtain ⟨a0, b0, hab⟩ := hmA g hg
      exact ⟨a0, b0, hsB _ hab⟩
    · exact hmB g hg
  | alt a b iha ihb =>
    intro fuel prev rest i caps k res h
    simp only [mgo] at h
    split at h
    · rename_i res2 hsc
      rw [Option.some_inj] at h
      subst h
      obtain ⟨p2, r2, i2, c2, hk, hmA, hsA⟩ := iha _ _ _ _ _ _ _ hsc
      refine ⟨p2, r2, i2, c2, hk, ?_, hsA⟩
      intro g hg
      rw [mandG, List.mem_filter] at hg
      exact hmA g hg.1
    · obtain ⟨p2, r2, i2, c2, hk, hmB, hsB⟩ := ihb _ _ _ _ _ _ _ h
      refine ⟨p2, r2, i2, c2, hk, ?_, hsB⟩
      intro g hg
      rw [mandG, List.mem_filter] at hg
      exact hmB g (by simpa using hg.2)
  | star r ihr =>
    intro fuel prev rest i caps k res h
    simp only [mgo] at h
    have hm : ∀ prev2 rest2 i2 caps2 k2 res2,
        mgo fuel r prev2 rest2 i2 caps2 k2 = some res2 →
        ∃ p3 r3 i3 caps3, k2 p3 r3 i3 caps3 = some res2 ∧ ∀ x ∈ caps2, x ∈ caps3 := by
      intro prev2 rest2 i2 caps2 k2 res2 hh
      obtain ⟨p3, r3, i3, c3, hk, _, hs⟩ := ihr _ _ _ _ _ _ _ hh
      exact ⟨p3, r3, i3, c3, hk, hs⟩
    obtain ⟨p2, r2, i2, c2, hk, hs⟩ := mstar_k _ hm _ _ _ _ _ _ _ h
    exact ⟨p2, r2, i2, c2, hk, by simp [mandG], hs⟩
  | starL r ihr =>
    intro fuel prev rest i caps k res h
    simp only [mgo] at h
    have hm : ∀ prev2 rest2 i2 caps2 k2 res2,
        mgo fuel r prev2 rest2 i2 caps2 k2 = some res2 →
        ∃ p3 r3 i3 caps3, k2 p3 r3 i3 caps3 = some res2 ∧ ∀ x ∈ caps2, x ∈ caps3 := by
      intro prev2 rest2 i2 caps2 k2 res2 hh
      obtain ⟨p3, r3, i3, c3, hk, _, hs⟩ := ihr _ _ _ _ _ _ _ hh
      exact ⟨p3, r3, i3, c3, hk, hs⟩
    obtain ⟨p2, r2, i2, c2, hk, hs⟩ := mstarL_k _ hm _ _ _ _ _ _ _ h
    exact ⟨p2, r2, i2, c2, hk, by simp [mandG], hs⟩
  | grp g0 r ihr =>
    intro fuel prev rest i caps k res h
    simp only [mgo] at h
    obtain ⟨p2, r2, i2, c2, hk, hmR, hsR⟩ := ihr _ _ _ _ _ _ _ h
    refine ⟨p2, r2, i2, (g0, i, i2) :: c2, hk, ?_, fun x hx => List.mem_cons_of_mem _ (hsR x hx)⟩
    intro g hg
    rw [mandG, List.mem_cons] at hg
    rcases hg with rfl | hg
    · exact ⟨i, i2, List.mem_cons_self _ _⟩
    · obtain ⟨a0, b0, hab⟩ := hmR g hg
      exact ⟨a0, b0, List.mem_cons_of_mem _ hab⟩
  | look r ihr =>
    intro fuel prev rest i caps k res h
    simp only [mgo] at h
    split at h
    · rename_i j0 c0 hsc
      obtain ⟨p2, r2, i2, c2, hk0, hmR, hsR⟩ := ihr _ _ _ _ _ _ _ hsc
      have hc0 : c2 = c0 := by
        rw [Option.some_inj] at hk0
        exact (Prod.mk.injEq .. ▸ hk0).2
      subst hc0
      exact ⟨prev, rest, i, c2, h, hmR, hsR⟩
    · exact absurd h (by simp)
  | wb =>
    intro fuel prev rest i caps k res h
    simp only [mgo] at h
    split at h
    · exact ⟨prev, rest, i, caps, h, by simp [mandG], fun x hx => hx⟩
    · exact absurd h (by simp)
  | bos =>
    intro fuel prev rest i caps k res h
    simp only [mgo] at h
    split at h
    · exact ⟨prev, rest, i, caps, h, by simp [mandG], fun x hx => hx⟩
    · exact absurd h (by simp)
  | eol =>
    intro fuel prev rest i caps k res h
    simp only [mgo] at h
    split at h
    · exact ⟨prev, rest, i, caps, h, by simp [mandG], fun x hx => hx⟩
    · exact absurd h (by simp)
  | eos =>
    intro fuel prev rest i caps k res h
    simp only [mgo] at h
    split at h
    · exact ⟨prev, rest, i, caps, h, by simp [mandG], fun x hx => hx⟩
    · exact absurd h (by simp)

/-- A successful anchored match records every mandatory group. -/
theorem matchAt_mand (r : Re) (s : List Char) (i j : Nat) (c : Caps)
    (h : matchAt r s i = some (j, c)) : ∀ g ∈ mandG r, ∃ a b, (g, a, b) ∈ c := by
  unfold matchAt at h
  obtain ⟨p2, r2, i2, c2, hk, hmand, _⟩ := mgo_mand r _ _ _ _ _ _ _ h
  rw [Option.some_inj] at hk
  have hc : c2 = c := (Prod.mk.injEq .. ▸ hk).2
  subst hc
  exact hmand

/-- A hit of the search loop is an anchored match at its start position. -/
theorem searchFromAux_matchAt (r : Re) (s : List Char) :
    ∀ (fuel i0 a b : Nat) (c : Caps),
      searchFromAux r s fuel i0 = some (a, b, c) → matchAt r s a = some (b, c) := by
  intro fuel
  induction fuel with
  | zero => intro i0 a b c h; exact absurd h (by simp [searchFromAux])
  | succ n ih =>
    intro i0 a b c h
    rw [searchFromAux] at h
    split at h
    · split at h
      · rename_i j c2 hma
        rw [Option.some_inj] at h
        obtain ⟨rfl, h2⟩ := Prod.mk.injEq .. ▸ h
        obtain ⟨rfl, rfl⟩ := Prod.mk.injEq .. ▸ h2
        exact hma
      · exact ih _ _ _ _ h
    · exact absurd h (by simp)

/-- Every match produced by finditer is an anchored match at its start. -/
theorem finditerAux_matchAt (r : Re) (s : List Char) :
    ∀ (fuel i0 : Nat) (m : Nat × Nat × Caps),
      m ∈ finditerAux r s fuel i0 → matchAt r s m.1 = some (m.2.1, m.2.2) := by
  intro fuel
  induction fuel with
  | zero => intro i0 m h; exact absurd h (by simp [finditerAux])
  | succ n ih =>
    intro i0 m h
    rw [finditerAux] at h
    split at h
    · exact absurd h (List.not_mem_nil m)
    · rename_i a b c hsa
      rcases List.mem_cons.mp h with rfl | h2
      · exact searchFromAux_matchAt r s _ _ _ _ _ hsa
      · exact ih _ _ h2

/-- Every finditer match records every mandatory group of the pattern. -/
theorem finditer_mand (r : Re) (s : List Char) (m : Nat × Nat × Caps)
    (hm : m ∈ finditer r s) (g : Nat) (hg : g ∈ mandG r) :
    ∃ a b, (g, a, b) ∈ m.2.2 :=
  matchAt_mand r s m.1 m.2.1 m.2.2 (finditerAux_matchAt r s _ _ m hm) g hg

/-- A search hit records every mandatory group of the pattern. -/
theorem reSearch_mand (r : Re) (s : List Char) (m : Nat × Nat × Caps)
    (hm : reSearch r s = some m) (g : Nat) (hg : g ∈ mandG r) :
    ∃ a b, (g, a, b) ∈ m.2.2 := by
  unfold reSearch at hm
  rcases m with ⟨a, b, c⟩
  exact matchAt_mand r s a b c (searchFromAux_matchAt r s _ _ _ _ _ hm) g hg

/-- A recorded group makes its lookup succeed. -/
theorem capLookup_isSome (caps : Caps) (g a b : Nat) (h : (g, a, b) ∈ caps) :
    (capLookup caps g).isSome := by
  unfold capLookup
  rcases hf : caps.find? (fun x => x.1 = g) with _ | x
  · exfalso
    have := List.find?_eq_none.mp hf _ h
    simp at this
  · rw [hf]
    rfl

/-- The groups list of a two-group pattern whose second group is recorded. -/
theorem groupsOf_two_snd (s : List Char) (caps : Caps)
    (h : (capLookup caps 2).isSome) :
    ∃ g0 g1, groupsOf s 2 caps = [g0, some g1] := by
  obtain ⟨ab, hab⟩ := Option.isSome_iff_exists.mp h
  refine ⟨(capLookup caps 1).map (fun ab => subSlice s ab.1 ab.2), subSlice s ab.1 ab.2, ?_⟩
  show (List.range 2).map _ = _
  rw [show List.range 2 = [0, 1] from rfl]
  simp [hab]

/-- The groups list of a one-group pattern whose group is recorded. -/
theorem groupsOf_one_fst (s : List Char) (caps : Caps)
    (h : (capLookup caps 1).isSome) :
    ∃ g0, groupsOf s 1 caps = [some g0] := by
  obtain ⟨ab, hab⟩ := Option.isSome_iff_exists.mp h
  refine ⟨subSlice s ab.1 ab.2, ?_⟩
  show (List.range 1).map _ = _
  rw [show List.range 1 = [0] from rfl]
  simp [hab]

/-- The groups list of a two-group pattern with both groups recorded. -/
theorem groupsOf_two_all (s : List Char) (caps : Caps)
    (h1 : (capLookup caps 1).isSome) (h2 : (capLookup caps 2).isSome) :
    ∃ g0 g1, groupsOf s 2 caps = [some g0, some g1] := by
  obtain ⟨ab1, hab1⟩ := Option.isSome_iff_exists.mp h1
  obtain ⟨ab2, hab2⟩ := Option.isSome_iff_exists.mp h2
  refine ⟨subSlice s ab1.1 ab1.2, subSlice s ab2.1 ab2.2, ?_⟩
  show (List.range 2).map _ = _
  rw [show List.range 2 = [0, 1] from rfl]
  simp [hab1, hab2]

/-- The groups list of a three-group pattern with the first and third groups
recorded. -/
theorem groupsOf_three_fst_thd (s : List Char) (caps : Caps)
    (h1 : (capLookup caps 1).isSome) (h3 : (capLookup caps 3).isSome) :
    ∃ g0 g1 g2, groupsOf s 3 caps = [some g0, g1, some g2] := by
  obtain ⟨ab1, hab1⟩ := Option.isSome_iff_exists.mp h1
  obtain ⟨ab3, hab3⟩ := Option.isSome_iff_exists.mp h3
  refine ⟨subSlice s ab1.1 ab1.2,
    (capLookup caps 2).map (fun ab => subSlice s ab.1 ab.2), subSlice s ab3.1 ab3.2, ?_⟩
  show (List.range 3).map _ = _
  rw [show List.range 3 = [0, 1, 2] from rfl]
  simp [hab1, hab3]

/-- The groups list of a three-group pattern, as a literal triple. -/
theorem groupsOf_three_shape (s : List Char) (caps : Caps) :
    ∃ g0 g1 g2, groupsOf s 3 caps = [g0, g1, g2] := by
  refine ⟨(capLookup caps 1).map (fun ab => subSlice s ab.1 ab.2),
    (capLookup caps 2).map (fun ab => subSlice s ab.1 ab.2),
    (capLookup caps 3).map (fun ab => subSlice s ab.1 ab.2), ?_⟩
  show (List.range 3).map _ = _
  rw [show List.range 3 = [0, 1, 2] from rfl]
  rfl

/-- Sequential mapping in the exception monad of the per-match loop bodies. -/
def exceptMapM {α β : Type} (f : α → Except String β) : List α → Except String (List β)
  | [] => .ok []
  | a :: as =>
    match f a with
    | .error e => .error e
    | .ok b =>
      match exceptMapM f as with
      | .error e => .error e
      | .ok bs => .ok (b :: bs)

/-- When no element throws, the monadic map is ok of the plain map. -/
theorem exceptMapM_ok {α β : Type} (f : α → Except String β) (g : α → β)
    (l : List α) (h : ∀ a ∈ l, f a = .ok (g a)) : exceptMapM f l = .ok (l.map g) := by
  induction l with
  | nil => rfl
  | cons a as ih =>
    rw [exceptMapM, h a (List.mem_cons_self a as),
      ih (fun x hx => h x (List.mem_cons_of_mem a hx))]
    rfl

/-- The per-pattern match pairs a category extractor iterates over. -/
def pairsOf (pats : List CRe) (text : List Char) : List (CRe × (Nat × Nat × Caps)) :=
  pats.flatMap (fun p => (finditer p.re text).map (fun m => (p, m)))

/-- The shared shape of the exception-instrumented category extractors. -/
def extractWithE (pats : List CRe) (text : List Char)
    (procE : Nat → (Nat × Nat × Caps) → Except String (List TechnicalEntity)) :
    Except String (List TechnicalEntity) :=
  match exceptMapM (fun pm => procE pm.1.ng pm.2) (pairsOf pats text) with
  | .error e => .error e
  | .ok ls => .ok (deduplicate_entities ls.flatten)

/-- When no per-match body throws, the instrumented extractor is ok of the
corresponding plain pattern-and-match loop. -/
theorem extractWithE_ok (pats : List CRe) (text : List Char)
    (proc : Nat → (Nat × Nat × Caps) → List TechnicalEntity)
    (procE : Nat → (Nat × Nat × Caps) → Except String (List TechnicalEntity))
    (h : ∀ p ∈ pats, ∀ m ∈ finditer p.re text, procE p.ng m = .ok (proc p.ng m)) :
    extractWithE pats text procE =
      .ok (deduplicate_entities (pats.flatMap (fun p =>
        (finditer p.re text).flatMap (fun m => proc p.ng m)))) := by
  unfold extractWithE
  have hmem : ∀ pm ∈ pairsOf pats text,
      procE pm.1.ng pm.2 = .ok (proc pm.1.ng pm.2) := by
    intro pm hpm
    unfold pairsOf at hpm
    simp only [List.mem_flatMap, List.mem_map] at hpm
    obtain ⟨p, hp, m, hm, rfl⟩ := hpm
    exact h p hp m hm
  rw [exceptMapM_ok (fun pm => procE pm.1.ng pm.2) (fun pm => proc pm.1.ng pm.2)
    (pairsOf pats text) hmem]
  dsimp only
  have hflat : ∀ ps : List CRe,
      ((pairsOf ps text).map (fun pm => proc pm.1.ng pm.2)).flatten =
      ps.flatMap (fun p => (finditer p.re text).flatMap (fun m => proc p.ng m)) := by
    intro ps
    induction ps with
    | nil => rfl
    | cons p ps2 ih =>
      unfold pairsOf at ih ⊢
      rw [List.flatMap_cons, List.map_append, List.flatten_append, ih, List.map_map,
        List.flatMap_cons]
      rfl
  rw [hflat pats]

/-- The condition under which the per-match body of extract_pin_info raises:
the function capture is None and None.strip() fails. -/
def pinCrash (text : List Char) (ng : Nat) (m : Nat × Nat × Caps) : Bool :=
  (ng = 2 : Bool) && !(match groupsOf text ng m.2.2 with
    | [_, some _] => true
    | _ => false)

/-- Exception-instrumented body of extract_pin_info. -/
def pinEntityOfMatchE (text : List Char) (ng : Nat) (m : Nat × Nat × Caps) :
    Except String (List TechnicalEntity) :=
  if pinCrash text ng m then .error "None.strip in extract_pin_info"
  else .ok (pinEntityOfMatch text ng m)

/-- The condition under which the per-match body of extract_register_info
raises: a None capture where upper or replace is called. -/
def registerCrash (text : List Char) (ng : Nat) (m : Nat × Nat × Caps) : Bool :=
  ((ng = 1 : Bool) && !(match groupsOf text ng m.2.2 with
    | [some _] => true
    | _ => false)) ||
  ((ng = 2 : Bool) && !(match groupsOf text ng m.2.2 with
    | [some _, some _] => true
    | _ => false))

/-- Exception-instrumented body of extract_register_info. -/
def registerEntityOfMatchE (text : List Char) (ng : Nat) (m : Nat × Nat × Caps) :
    Except String (List TechnicalEntity) :=
  if registerCrash text ng m then .error "None.upper in extract_register_info"
  else .ok (registerEntityOfMatch text ng m)

/-- The condition under which the per-match body of extract_timing_specs
raises: None where endswith or strip is called. -/
def timingCrash (text : List Char) (ng : Nat) (m : Nat × Nat × Caps) : Bool :=
  (ng = 3 : Bool) && (match groupsOf text ng m.2.2 with
    | [g0, _, some g2] =>
      if "time".data.isSuffixOf g2 then false else g0.isNone
    | _ => true)

/-- Exception-instrumented body of extract_timing_specs. -/
def timingEntityOfMatchE (text : List Char) (ng : Nat) (m : Nat × Nat × Caps) :
    Except String (List TechnicalEntity) :=
  if timingCrash text ng m then .error "None.endswith or None.strip in extract_timing_specs"
  else .ok (timingEntityOfMatch text ng m)

/-- The condition under which _extract_current_name raises:
None.capitalize(). -/
def currentNameCrash (pre : List Char) : Bool :=
  match reSearch curNamePat.re pre with
  | some m => ((groupsOf pre 1 m.2.2).getD 0 none).isNone
  | none => false

/-- The condition under which the per-match body of extract_current_specs
raises, through _extract_current_name. -/
def currentMatchCrash (text : List Char) (ng : Nat) (m : Nat × Nat × Caps) : Bool :=
  (2 ≤ ng : Bool) && currentNameCrash ((getContext text m.1 m.2.1 100).data.take m.1)

/-- Exception-instrumented body of extract_current_specs. -/
def currentEntityOfMatchE (text : List Char) (ng : Nat) (m : Nat × Nat × Caps) :
    Except String (List TechnicalEntity) :=
  if currentMatchCrash text ng m then .error "None.capitalize in _extract_current_name"
  else .ok (currentEntityOfMatch text ng m)

/-- The condition under which the per-match body of extract_error_codes
raises: an unpack of the wrong arity or None.strip(). -/
def errorCrash (text : List Char) (ng : Nat) (m : Nat × Nat × Caps) : Bool :=
  !(match groupsOf text ng m.2.2 with
    | [_, some _] => true
    | _ => false)

/-- Exception-instrumented body of extract_error_codes. -/
def errorEntityOfMatchE (text : List Char) (ng : Nat) (m : Nat × Nat × Caps) :
    Except String (List TechnicalEntity) :=
  if errorCrash text ng m then .error "unpack or None.strip in extract_error_codes"
  else .ok (errorEntityOfMatch text ng m)

/-- The condition under which the per-match body of extract_procedures
raises: None.split(). -/
def procedureCrash (text : List Char) (ng : Nat) (m : Nat × Nat × Caps) : Bool :=
  (ng = 2 : Bool) && !(match groupsOf text ng m.2.2 with
    | [_, some _] => true
    | _ => false)

/-- Exception-instrumented body of extract_procedures. -/
def procedureEntityOfMatchE (text : List Char) (ng : Nat) (m : Nat × Nat × Caps) :
    Except String (List TechnicalEntity) :=
  if procedureCrash text ng m then .error "None.split in extract_procedures"
  else .ok (procedureEntityOfMatch text ng m)

/-- Exception-instrumented extract_all_entities: each category extractor
runs its per-match loop in the exception monad, with a throw exactly where
the Python code would raise.  The voltage, frequency and bitfield loop
bodies contain no raising operation, so their instrumented bodies return
ok unconditionally. -/
def extract_all_entitiesE (text : String) : Except String (List TechnicalEntity) :=
  match extractWithE pinPatterns text.data (pinEntityOfMatchE text.data) with
  | .error e => .error e
  | .ok l1 =>
  match extractWithE registerPatterns text.data (registerEntityOfMatchE text.data) with
  | .error e => .error e
  | .ok l2 =>
  match extractWithE voltagePatterns text.data
      (fun ng m => .ok (voltageEntityOfMatch text.data ng m)) with
  | .error e => .error e
  | .ok l3 =>
  match extractWithE timingPatterns text.data (timingEntityOfMatchE text.data) with
  | .error e => .error e
  | .ok l4 =>
  match extractWithE frequencyPatterns text.data
      (fun ng m => .ok (frequencyEntityOfMatch text.data ng m)) with
  | .error e => .error e
  | .ok l5 =>
  match extractWithE currentPatterns text.data (currentEntityOfMatchE text.data) with
  | .error e => .error e
  | .ok l6 =>
  match extractWithE bitfieldPatterns text.data
      (fun ng m => .ok (bitfieldEntityOfMatch text.data ng m)) with
  | .error e => .error e
  | .ok l7 =>
  match extractWithE errorPatterns text.data (errorEntityOfMatchE text.data) with
  | .error e => .error e
  | .ok l8 =>
  match extractWithE procedurePatterns text.data (procedureEntityOfMatchE text.data) with
  | .error e => .error e
  | .ok l9 => .ok (l1 ++ l2 ++ l3 ++ l4 ++ l5 ++ l6 ++ l7 ++ l8 ++ l9)

/-- The pin loop body never raises: the function group is mandatory. -/
theorem pinEntityOfMatchE_ok (text : List Char) (p : CRe) (hp : p ∈ pinPatterns)
    (m : Nat × Nat × Caps) (hm : m ∈ finditer p.re text) :
    pinEntityOfMatchE text p.ng m = .ok (pinEntityOfMatch text p.ng m) := by
  simp only [pinPatterns, List.mem_cons, List.not_mem_nil, or_false] at hp
  rcases hp with rfl | rfl | rfl
  · obtain ⟨a, b, hab⟩ := finditer_mand _ text m hm 2 (by decide)
    obtain ⟨g0, g1, hshape⟩ :=
      groupsOf_two_snd text m.2.2 (capLookup_isSome m.2.2 2 a b hab)
    simp [pinEntityOfMatchE, pinCrash, pinPat1, hshape]
  · obtain ⟨a, b, hab⟩ := finditer_mand _ text m hm 2 (by decide)
    obtain ⟨g0, g1, hshape⟩ :=
      groupsOf_two_snd text m.2.2 (capLookup_isSome m.2.2 2 a b hab)
    simp [pinEntityOfMatchE, pinCrash, pinPat2, hshape]
  · obtain ⟨a, b, hab⟩ := finditer_mand _ text m hm 2 (by decide)
    obtain ⟨g0, g1, hshape⟩ :=
      groupsOf_two_snd text m.2.2 (capLookup_isSome m.2.2 2 a b hab)
    simp [pinEntityOfMatchE, pinCrash, pinPat3, hshape]

/-- The register loop body never raises: all register groups are mandatory. -/
theorem registerEntityOfMatchE_ok (text : List Char) (p : CRe)
    (hp : p ∈ registerPatterns) (m : Nat × Nat × Caps) (hm : m ∈ finditer p.re text) :
    registerEntityOfMatchE text p.ng m = .ok (registerEntityOfMatch text p.ng m) := by
  simp only [registerPatterns, List.mem_cons, List.not_mem_nil, or_false] at hp
  rcases hp with rfl | rfl | rfl | rfl
  · obtain ⟨a, b, hab⟩ := finditer_mand _ text m hm 1 (by decide)
    obtain ⟨g0, hshape⟩ :=
      groupsOf_one_fst text m.2.2 (capLookup_isSome m.2.2 1 a b hab)
    simp [registerEntityOfMatchE, registerCrash, regPat1, hshape]
  · obtain ⟨a1, b1, hab1⟩ := finditer_mand _ text m hm 1 (by decide)
    obtain ⟨a2, b2, hab2⟩ := finditer_mand _ text m hm 2 (by decide)
    obtain ⟨g0, g1, hshape⟩ := groupsOf_two_all text m.2.2
      (capLookup_isSome m.2.2 1 a1 b1 hab1) (capLookup_isSome m.2.2 2 a2 b2 hab2)
    simp [registerEntityOfMatchE, registerCrash, regPat2, hshape]
  · obtain ⟨a1, b1, hab1⟩ := finditer_mand _ text m hm 1 (by decide)
    obtain ⟨a2, b2, hab2⟩ := finditer_mand _ text m hm 2 (by decide)
    obtain ⟨g0, g1, hshape⟩ := groupsOf_two_all text m.2.2
      (capLookup_isSome m.2.2 1 a1 b1 hab1) (capLookup_isSome m.2.2 2 a2 b2 hab2)
    simp [registerEntityOfMatchE, registerCrash, regPat3, hshape]
  · obtain ⟨a, b, hab⟩ := finditer_mand _ text m hm 1 (by decide)
    obtain ⟨g0, hshape⟩ :=
      groupsOf_one_fst text m.2.2 (capLookup_isSome m.2.2 1 a b hab)
    simp [registerEntityOfMatchE, registerCrash, regPat4, hshape]

/-- The timing loop body never raises: for the three-capture recognizers the
name-position groups are mandatory, and the two-capture recognizers are
skipped by the arity guard. -/
theorem timingEntityOfMatchE_ok (text : List Char) (p : CRe)
    (hp : p ∈ timingPatterns) (m : Nat × Nat × Caps) (hm : m ∈ finditer p.re text) :
    timingEntityOfMatchE text p.ng m = .ok (timingEntityOfMatch text p.ng m) := by
  simp only [timingPatterns, List.mem_cons, List.not_mem_nil, or_false] at hp
  rcases hp with rfl | rfl | rfl | rfl
  · obtain ⟨a1, b1, hab1⟩ := finditer_mand _ text m hm 1 (by decide)
    obtain ⟨a3, b3, hab3⟩ := finditer_mand _ text m hm 3 (by decide)
    obtain ⟨g0, g1, g2, hshape⟩ := groupsOf_three_fst_thd text m.2.2
      (capLookup_isSome m.2.2 1 a1 b1 hab1) (capLookup_isSome m.2.2 3 a3 b3 hab3)
    simp [timingEntityOfMatchE, timingCrash, timPat1, hshape]
  · obtain ⟨a1, b1, hab1⟩ := finditer_mand _ text m hm 1 (by decide)
    obtain ⟨a3, b3, hab3⟩ := finditer_mand _ text m hm 3 (by decide)
    obtain ⟨g0, g1, g2, hshape⟩ := groupsOf_three_fst_thd text m.2.2
      (capLookup_isSome m.2.2 1 a1 b1 hab1) (capLookup_isSome m.2.2 3 a3 b3 hab3)
    simp [timingEntityOfMatchE, timingCrash, timPat2, hshape]
  · simp [timingEntityOfMatchE, timingCrash, timPat3]
  · simp [timingEntityOfMatchE, timingCrash, timPat4]

/-- The current-name helper never raises: its one group is mandatory. -/
theorem currentNameCrash_false (pre : List Char) : currentNameCrash pre = false := by
  unfold currentNameCrash
  rcases hs : reSearch curNamePat.re pre with _ | m
  · rfl
  · obtain ⟨a, b, hab⟩ := reSearch_mand _ pre m hs 1 (by decide)
    obtain ⟨g0, hshape⟩ :=
      groupsOf_one_fst pre m.2.2 (capLookup_isSome m.2.2 1 a b hab)
    dsimp only
    rw [hshape]
    rfl

/-- The current loop body never raises. -/
theorem currentEntityOfMatchE_ok (text : List Char) (ng : Nat) (m : Nat × Nat × Caps) :
    currentEntityOfMatchE text ng m = .ok (currentEntityOfMatch text ng m) := by
  simp [currentEntityOfMatchE, currentMatchCrash, currentNameCrash_false]

/-- The error-code loop body never raises: the description group is
mandatory and every error pattern has exactly two groups. -/
theorem errorEntityOfMatchE_ok (text : List Char) (p : CRe)
    (hp : p ∈ errorPatterns) (m : Nat × Nat × Caps) (hm : m ∈ finditer p.re text) :
    errorEntityOfMatchE text p.ng m = .ok (errorEntityOfMatch text p.ng m) := by
  simp only [errorPatterns, List.mem_cons, List.not_mem_nil, or_false] at hp
  rcases hp with rfl | rfl | rfl
  · obtain ⟨a, b, hab⟩ := finditer_mand _ text m hm 2 (by decide)
    obtain ⟨g0, g1, hshape⟩ :=
      groupsOf_two_snd text m.2.2 (capLookup_isSome m.2.2 2 a b hab)
    simp [errorEntityOfMatchE, errorCrash, errPat1, hshape]
  · obtain ⟨a, b, hab⟩ := finditer_mand _ text m hm 2 (by decide)
    obtain ⟨g0, g1, hshape⟩ :=
      groupsOf_two_snd text m.2.2 (capLookup_isSome m.2.2 2 a b hab)
    simp [errorEntityOfMatchE, errorCrash, errPat2, hshape]
  · obtain ⟨a, b, hab⟩ := finditer_mand _ text m hm 2 (by decide)
    obtain ⟨g0, g1, hshape⟩ :=
      groupsOf_two_snd text m.2.2 (capLookup_isSome m.2.2 2 a b hab)
    simp [errorEntityOfMatchE, errorCrash, errPat3, hshape]

/-- The procedure loop body never raises: the description group is
mandatory. -/
theorem procedureEntityOfMatchE_ok (text : List Char) (p : CRe)
    (hp : p ∈ procedurePatterns) (m : Nat × Nat × Caps) (hm : m ∈ finditer p.re text) :
    procedureEntityOfMatchE text p.ng m = .ok (procedureEntityOfMatch text p.ng m) := by
  simp only [procedurePatterns, List.mem_cons, List.not_mem_nil, or_false] at hp
  rcases hp with rfl | rfl | rfl
  · obtain ⟨a, b, hab⟩ := finditer_mand _ text m hm 2 (by decide)
    obtain ⟨g0, g1, hshape⟩ :=
      groupsOf_two_snd text m.2.2 (capLookup_isSome m.2.2 2 a b hab)
    simp [procedureEntityOfMatchE, procedureCrash, procPat1, hshape]
  · obtain ⟨a, b, hab⟩ := finditer_mand _ text m hm 2 (by decide)
    obtain ⟨g0, g1, hshape⟩ :=
      groupsOf_two_snd text m.2.2 (capLookup_isSome m.2.2 2 a b hab)
    simp [procedureEntityOfMatchE, procedureCrash, procPat2, hshape]
  · obtain ⟨a, b, hab⟩ := finditer_mand _ text m hm 2 (by decide)
    obtain ⟨g0, g1, hshape⟩ :=
      groupsOf_two_snd text m.2.2 (capLookup_isSome m.2.2 2 a b hab)
    simp [procedureEntityOfMatchE, procedureCrash, procPat3, hshape]

/-- The instrumented entity pass never throws: it is ok of the plain pass. -/
theorem extract_all_entitiesE_ok (text : String) :
    extract_all_entitiesE text = .ok (extract_all_entities text) := by
  unfold extract_all_entitiesE
  rw [extractWithE_ok pinPatterns text.data (pinEntityOfMatch text.data)
      (pinEntityOfMatchE text.data) (fun p hp m hm => pinEntityOfMatchE_ok text.data p hp m hm),
    extractWithE_ok registerPatterns text.data (registerEntityOfMatch text.data)
      (registerEntityOfMatchE text.data)
      (fun p hp m hm => registerEntityOfMatchE_ok text.data p hp m hm),
    extractWithE_ok voltagePatterns text.data (voltageEntityOfMatch text.data)
      (fun ng m => .ok (voltageEntityOfMatch text.data ng m)) (fun _ _ _ _ => rfl),
    extractWithE_ok timingPatterns text.data (timingEntityOfMatch text.data)
      (timingEntityOfMatchE text.data)
      (fun p hp m hm => timingEntityOfMatchE_ok text.data p hp m hm),
    extractWithE_ok frequencyPatterns text.data (frequencyEntityOfMatch text.data)
      (fun ng m => .ok (frequencyEntityOfMatch text.data ng m)) (fun _ _ _ _ => rfl),
    extractWithE_ok currentPatterns text.data (currentEntityOfMatch text.data)
      (currentEntityOfMatchE text.data)
      (fun _ _ m _ => currentEntityOfMatchE_ok text.data _ m),
    extractWithE_ok bitfieldPatterns text.data (bitfieldEntityOfMatch text.data)
      (fun ng m => .ok (bitfieldEntityOfMatch text.data ng m)) (fun _ _ _ _ => rfl),
    extractWithE_ok errorPatterns text.data (errorEntityOfMatch text.data)
      (errorEntityOfMatchE text.data)
      (fun p hp m hm => errorEntityOfMatchE_ok text.data p hp m hm),
    extractWithE_ok procedurePatterns text.data (procedureEntityOfMatch text.data)
      (procedureEntityOfMatchE text.data)
      (fun p hp m hm => procedureEntityOfMatchE_ok text.data p hp m hm)]
  rfl

/-- The header scan only ever reports non-empty headers together with a set
header index. -/
theorem headerScanGo_inv :
    ∀ (rest : List (List Char)) (idx : Nat) (st : Option Nat × List String × Option String),
      (st.2.1 ≠ [] → st.1.isSome) →
      ((headerScanGo rest idx st).2.1 ≠ [] → (headerScanGo rest idx st).1.isSome) := by
  intro rest
  induction rest with
  | nil => intro idx st h; exact h
  | cons l ls ih =>
    intro idx st h
    rw [headerScanGo]
    split
    · split
      · intro _
        simp
      · apply ih
        intro _
        simp
    · split
      · exact h
      · exact ih _ _ h

/-- Non-empty resolved headers always come with a header index. -/
theorem headerState_idx (lines : List (List Char)) :
    (headerState lines).2.1 ≠ [] → (headerState lines).1.isSome := by
  unfold headerState
  dsimp only
  split
  · split
    · intro _; simp
    · intro h; exact absurd rfl h
  · rename_i hne
    exact headerScanGo_inv lines 0 (none, [], none) (fun h => absurd rfl h)

/-- Exception-instrumented _extract_table_from_section: the only raising
operation in the table pass is iterating rows from a None header index,
which would be a TypeError on range(None + 1, ...). -/
def extractTableFromSectionE (sect : List Char) : Except String (Option Table) :=
  let lines := splitSep "\n".data sect
  let st2 := headerState lines
  if st2.2.1.isEmpty then .ok none
  else
    match st2.1 with
    | none => .error "range over None header index in _extract_table_from_section"
    | some hidx =>
      .ok (assembleTable st2.2.1
        (collectRowsL (lines.drop (hidx + 1)) st2.2.2 st2.2.1.length)
        (String.mk sect) st2.2.2)

/-- Exception-instrumented detect_and_extract_tables. -/
def detect_and_extract_tablesE (text : String) : Except String (List Table) :=
  match exceptMapM extractTableFromSectionE (splitIntoSectionsL text.data) with
  | .error e => .error e
  | .ok opts => .ok (opts.filterMap (fun o =>
      match o with
      | some t => if 0 < t.rows.length then some t else none
      | none => none))

/-- The instrumented section extraction never throws. -/
theorem extractTableFromSectionE_ok (sect : List Char) :
    extractTableFromSectionE sect = .ok (extractTableFromSectionL sect) := by
  unfold extractTableFromSectionE extractTableFromSectionL
  dsimp only
  by_cases h : (headerState (splitSep "\n".data sect)).2.1.isEmpty
  · rw [if_pos h, if_pos h]
  · rw [if_neg h, if_neg h]
    rcases hidx : (headerState (splitSep "\n".data sect)).1 with _ | i
    · exfalso
      have h2 := headerState_idx (splitSep "\n".data sect)
        (by rwa [ne_eq, ← List.isEmpty_iff])
      rw [hidx] at h2
      simp at h2
    · rfl

/-- The instrumented table pass never throws: it is ok of the plain pass. -/
theorem detect_and_extract_tablesE_ok (text : String) :
    detect_and_extract_tablesE text = .ok (detect_and_extract_tables text) := by
  unfold detect_and_extract_tablesE
  rw [exceptMapM_ok extractTableFromSectionE extractTableFromSectionL _
    (fun s _ => extractTableFromSectionE_ok s)]
  dsimp only
  rw [List.filterMap_map]
  rfl

/-- C6: both passes are total.  The instrumented variants, which throw
exactly at the operations where the Python code would raise (a tuple unpack
of the wrong arity, a string method called on a None capture, iteration
from a missing header index), return ok of the plain result on every input
text, so no condition arising during a pass aborts the extraction. -/
theorem extraction_total (text : String) :
    extract_all_entitiesE text = .ok (extract_all_entities text) ∧
    detect_and_extract_tablesE text = .ok (detect_and_extract_tables text) :=
  ⟨extract_all_entitiesE_ok text, detect_and_extract_tablesE_ok text⟩
